import Mathlib

/-! Verification of the `ntp` time-synchronisation package and of two of its neighbours.

A shallow embedding of `src/ntp/syncTime.go` (namespace `ntp`), followed by the store
of `src/process/mock/storerMock.go` (namespace `mock`) and two functions of
`src/process/block/metrics.go` (namespace `block`).

* `time.Duration` is a signed 64-bit nanosecond count: an `Int` whose additions are
  reduced with `wrapInt64`.
* The query function stored in `syncTime.query` is a Go closure, so it is a state
  transformer over an arbitrary world type `W`; its Go result `(*ntp.Response, error)`
  is the pair `QueryResult` of two nullable components.
* A run-time panic (nil dereference, integer division by zero) is the error branch of
  `Except Panic`.
* `sync` also returns the list of externally visible events it performed, in order.
* Values are computed sequentially; the operations of a method on the read/write mutex
  and on the `clockOffset` field are recorded separately, as lists of `Access`.
* `time.Time` and `fmt.Sprintf` belong to Go's standard library; the time operations
  are parameters (`Add`, `Calendar`) and the `%.Nd` verb is `fmtInteger`.
-/

namespace ntp

/-! ## Machine integers -/

/-- Reduction of an integer to the signed 64-bit range (two's complement wrap-around). -/
def wrapInt64 (x : Int) : Int :=
  (x + 9223372036854775808) % 18446744073709551616 - 9223372036854775808

/-- Membership in the signed 64-bit range. -/
def isInt64 (x : Int) : Prop :=
  -9223372036854775808 ≤ x ∧ x < 9223372036854775808

instance (x : Int) : Decidable (isInt64 x) := by
  unfold isInt64; exact inferInstance

/-- Run-time panics that the statements of `sync` can raise. -/
inductive Panic where
  | nilPointerDereference
  | integerDivideByZero
deriving DecidableEq, Repr

/-- Go's `int64(a) / int64(b)`: panics on a zero divisor, truncates toward zero. -/
def int64Div (a b : Int) : Except Panic Int :=
  if b = 0 then .error Panic.integerDivideByZero else .ok (wrapInt64 (Int.tdiv a b))

/-! ## Data model -/

/-- totalRequests defines the number of requests made to determine an accurate clock offset -/
def totalRequests : Nat := 10

/-- NTPOptions defines configuration options for an NTP query -/
structure NTPOptions where
  Host : String
  Version : Int
  LocalAddress : String
  Timeout : Int
  Port : Int
deriving DecidableEq, Repr

/-- NewNTPOptions creates a new NTPOptions object. -/
def NewNTPOptions : NTPOptions :=
  { Host := "127.0.0.1", Port := 1123, Version := 0, LocalAddress := "", Timeout := 0 }

/-- The fields of `beevikntp.QueryOptions` that `queryNTP` fills in. -/
structure QueryOptions where
  Timeout : Int
  Version : Int
  LocalAddress : String
  Port : Int
deriving DecidableEq, Repr

/-- The part of `ntp.Response` used by this package: `sync` reads `ClockOffset` only. -/
structure Response where
  ClockOffset : Int
  RTT : Int
deriving DecidableEq, Repr

/-- The Go result pair `(*ntp.Response, error)`; `none` is `nil`. -/
structure QueryResult where
  r : Option Response
  err : Option String
deriving DecidableEq, Repr

/-- The type of the `query` field: a closure, hence a transformer of the world `W`. -/
abbrev QueryFunc (W : Type) := NTPOptions → W → QueryResult × W

/-- queryNTP wraps beevikntp.QueryWithOptions (a parameter here), in order to use
NTPOptions, which contains both Host and Port. -/
def queryNTP {W : Type} (QueryWithOptions : String → QueryOptions → W → QueryResult × W)
    (options : NTPOptions) : W → QueryResult × W :=
  let queryOptions : QueryOptions :=
    { Timeout := options.Timeout, Version := options.Version,
      LocalAddress := options.LocalAddress, Port := options.Port }
  QueryWithOptions options.Host queryOptions

/-- syncTime defines an object for time synchronization -/
structure syncTime (W : Type) where
  clockOffset : Int
  syncPeriod : Int
  query : Option (QueryFunc W)

/-- NewSyncTime creates a syncTime object -/
def NewSyncTime {W : Type} (QueryWithOptions : String → QueryOptions → W → QueryResult × W)
    (syncPeriod : Int) : syncTime W :=
  { clockOffset := 0, syncPeriod := syncPeriod, query := some (queryNTP QueryWithOptions) }

/-- Externally visible actions of the synchroniser, recorded in execution order. -/
inductive Event where
  | query (options : NTPOptions)
  | setClockOffset (clockOffset : Int)
  | sleep (d : Int)
deriving DecidableEq, Repr

/-! ## Operations -/

/-- ClockOffset method gets the current time offset -/
def syncTime.ClockOffset {W : Type} (s : syncTime W) : Int :=
  s.clockOffset

/-- The unexported setter: assigns the `clockOffset` field. -/
def syncTime.setClockOffset {W : Type} (s : syncTime W) (clockOffset : Int) : syncTime W :=
  { s with clockOffset := clockOffset }

/-- The `for i := 0; i < totalRequests; i++` loop of `sync`, by the number of iterations
still to run. The accumulators are `clockOffsetSum` and `succeededRequests`. -/
def syncLoop {W : Type} (query : QueryFunc W) :
    Nat → Int → Int → W → List Event → Except Panic (Int × Int × W × List Event)
  | 0, clockOffsetSum, succeededRequests, w, tr =>
      .ok (clockOffsetSum, succeededRequests, w, tr)
  | n + 1, clockOffsetSum, succeededRequests, w, tr =>
      let res := query NewNTPOptions w
      let tr1 := tr ++ [Event.query NewNTPOptions]
      match res.1.err with
      | some _ => syncLoop query n clockOffsetSum succeededRequests res.2 tr1
      | none =>
        match res.1.r with
        | none => .error Panic.nilPointerDereference
        | some r =>
          syncLoop query n (wrapInt64 (clockOffsetSum + r.ClockOffset))
            (wrapInt64 (succeededRequests + 1)) res.2 tr1

/-- The sync method does the time synchronization and sets the current offset difference
between local time and server time with which it has done the synchronization. -/
def syncTime.sync {W : Type} (s : syncTime W) (w : W) :
    Except Panic (syncTime W × W × List Event) :=
  match s.query with
  | none => .ok (s, w, [])
  | some query =>
    match syncLoop query totalRequests 0 0 w [] with
    | .error e => .error e
    | .ok (clockOffsetSum, succeededRequests, w1, tr) =>
      if succeededRequests > 0 then
        match int64Div clockOffsetSum succeededRequests with
        | .error e => .error e
        | .ok averrageClockOffset =>
          .ok (s.setClockOffset averrageClockOffset, w1,
               tr ++ [Event.setClockOffset averrageClockOffset])
      else
        .ok (s, w1, tr)

/-- The first `n` iterations of the endless loop of `StartSync`: a cycle, then a sleep
of `syncPeriod`. -/
def syncTime.StartSync {W : Type} :
    Nat → syncTime W → W → Except Panic (syncTime W × W × List Event)
  | 0, s, w => .ok (s, w, [])
  | n + 1, s, w =>
    match s.sync w with
    | .error e => .error e
    | .ok (s1, w1, tr1) =>
      match syncTime.StartSync n s1 w1 with
      | .error e => .error e
      | .ok (s2, w2, tr2) => .ok (s2, w2, tr1 ++ Event.sleep s1.syncPeriod :: tr2)

/-- CurrentTime method gets the current time on which is added the current offset.
`now` is the reading of `time.Now()` and `Add` is `time.Time.Add`. -/
def syncTime.CurrentTime {W T : Type} (Add : T → Int → T) (now : T) (s : syncTime W) : T :=
  Add now s.clockOffset

/-! ## Formatting -/

/-- The accessors of `time.Time` that `formatTime` calls. -/
structure Calendar (T : Type) where
  Year : T → Int
  Month : T → Int
  Day : T → Int
  Hour : T → Int
  Minute : T → Int
  Second : T → Int
  Nanosecond : T → Int

/-- The digit loop of Go's `fmtInteger` in base 10: `for u >= 10` peels the last digit
into the buffer, then the leading digit is written. A `uint64` has at most 20 digits,
which bounds the iterations. -/
def fmtDigits : Nat → Nat → List Char → List Char
  | 0, u, buf => Nat.digitChar (u % 10) :: buf
  | fuel + 1, u, buf =>
    if u ≥ 10 then fmtDigits fuel (u / 10) (Nat.digitChar (u % 10) :: buf)
    else Nat.digitChar u :: buf

/-- Left padding with zeros up to `prec` digits. -/
def padZeros (prec : Nat) (buf : List Char) : List Char :=
  List.replicate (prec - buf.length) '0' ++ buf

/-- The verb `%.Nd` of `fmt.Sprintf` on a signed integer: at least `prec` digits,
zero padded, with a minus sign before them for a negative value; precision 0 with
value 0 prints nothing. -/
def fmtInteger (prec : Nat) (v : Int) : List Char :=
  let u := v.natAbs
  if prec = 0 ∧ u = 0 then []
  else
    let buf := padZeros prec (fmtDigits 20 u [])
    if v < 0 then '-' :: buf else buf

/-- The formatTime method gets the formatted time from a given time:
`Sprintf("%.4d-%.2d-%.2d %.2d:%.2d:%.2d.%.9d ", ...)`. -/
def syncTime.formatTime {W T : Type} (_s : syncTime W) (cal : Calendar T) (time : T) : String :=
  String.mk
    (fmtInteger 4 (cal.Year time) ++ '-' :: fmtInteger 2 (cal.Month time) ++
      '-' :: fmtInteger 2 (cal.Day time) ++ ' ' :: fmtInteger 2 (cal.Hour time) ++
      ':' :: fmtInteger 2 (cal.Minute time) ++ ':' :: fmtInteger 2 (cal.Second time) ++
      '.' :: fmtInteger 9 (cal.Nanosecond time) ++ [' '])

/-- FormattedCurrentTime method gets the formatted current time on which is added a
given offset. -/
def syncTime.FormattedCurrentTime {W T : Type} (Add : T → Int → T) (cal : Calendar T)
    (now : T) (s : syncTime W) : String :=
  s.formatTime cal (s.CurrentTime Add now)

/-! ## Vocabulary of the specification -/

/-- The results of `n` successive calls of the query with `NewNTPOptions()`, from world `w`. -/
def outcomes {W : Type} (query : QueryFunc W) : Nat → W → List QueryResult
  | 0, _ => []
  | n + 1, w => (query NewNTPOptions w).1 :: outcomes query n (query NewNTPOptions w).2

/-- The world after `n` successive calls of the query. -/
def worldAfter {W : Type} (query : QueryFunc W) : Nat → W → W
  | 0, w => w
  | n + 1, w => worldAfter query n (query NewNTPOptions w).2

/-- A sample outcome is either an error or a response. -/
def QueryResult.wellFormed (o : QueryResult) : Prop :=
  o.err ≠ none ∨ o.r ≠ none

instance (o : QueryResult) : Decidable o.wellFormed := by
  unfold QueryResult.wellFormed; exact inferInstance

/-- The offset of a successful sample: nil error and a response. -/
def QueryResult.offset? (o : QueryResult) : Option Int :=
  match o.err, o.r with
  | none, some r => some r.ClockOffset
  | _, _ => none

/-- The offsets of the successful samples, in order. -/
def successOffsets (os : List QueryResult) : List Int :=
  os.filterMap QueryResult.offset?

/-- The integer mean of the specification: exact sum over count, truncated toward zero. -/
def truncatedMean (xs : List Int) : Int :=
  Int.tdiv xs.sum xs.length

/-- A query that replays a script of results, one per call, and fails once the script
is exhausted (the shape of the mocks that replace `query` in tests). -/
def scriptedQuery : QueryFunc (List QueryResult)
  | _, [] => ({ r := none, err := some "no more results" }, [])
  | _, o :: rest => (o, rest)

/-- A `QueryWithOptions` replaying a script. -/
def scriptedQueryWithOptions : String → QueryOptions → List QueryResult → QueryResult × List QueryResult
  | _, _, [] => ({ r := none, err := some "no more results" }, [])
  | _, _, o :: rest => (o, rest)

/-- A successful sample with the given offset. -/
def okSample (d : Int) : QueryResult := { r := some { ClockOffset := d, RTT := 0 }, err := none }

/-- A failed sample. -/
def failedSample : QueryResult := { r := none, err := some "timeout" }

/-- The value that a cycle with successful offsets `xs` computes: the 64-bit running sum
divided by the count, truncated toward zero. -/
def wrappedMean (xs : List Int) : Int :=
  Int.tdiv (wrapInt64 xs.sum) xs.length

/-- The outcome lists of `n` successive cycles, each of `totalRequests` samples. -/
def cycleOutcomes {W : Type} (query : QueryFunc W) : Nat → W → List (List QueryResult)
  | 0, _ => []
  | n + 1, w =>
    outcomes query totalRequests w ::
      cycleOutcomes query n (worldAfter query totalRequests w)

/-- The options that the query calls of a trace received, in order. -/
def queryCalls (tr : List Event) : List NTPOptions :=
  tr.filterMap fun e => match e with
    | Event.query options => some options
    | _ => none

/-- The values written to the offset register by a trace, in order. -/
def offsetWrites (tr : List Event) : List Int :=
  tr.filterMap fun e => match e with
    | Event.setClockOffset d => some d
    | _ => none

/-- Two successes of 2^62 ns each, then eight failures: the exact sum is 2^63. -/
def overflowSamples : List QueryResult :=
  [okSample 4611686018427387904, okSample 4611686018427387904, failedSample, failedSample,
   failedSample, failedSample, failedSample, failedSample, failedSample, failedSample]

/-- Successes of 50ms, 60ms and 70ms among seven failures. -/
def threeOfTen : List QueryResult :=
  [okSample 50000000, failedSample, okSample 60000000, failedSample, failedSample,
   okSample 70000000, failedSample, failedSample, failedSample, failedSample]

/-- Ten failures. -/
def allFailed : List QueryResult := List.replicate 10 failedSample

/-- The offset stored after a run, or the panic that ended it. -/
def offsetAfter {W : Type} (res : Except Panic (syncTime W × W × List Event)) :
    Except Panic Int :=
  match res with
  | .error e => .error e
  | .ok (s, _, _) => .ok s.ClockOffset

/-- A synchroniser whose query replays a script, with the given stored offset. -/
def mockSync (clockOffset : Int) : syncTime (List QueryResult) :=
  { clockOffset := clockOffset, syncPeriod := 1000000000, query := some scriptedQuery }

/-- Successes of -3ns and -4ns, then eight failures. -/
def negativeSamples : List QueryResult :=
  [okSample (-3), okSample (-4), failedSample, failedSample, failedSample, failedSample,
   failedSample, failedSample, failedSample, failedSample]

/-- The `k` low decimal digits of `n`, most significant first. -/
def fixedDigits : Nat → Nat → List Char
  | 0, _ => []
  | k + 1, n => fixedDigits k (n / 10) ++ [Nat.digitChar (n % 10)]

/-- The decimal digit of `v` at the place of weight `p` (1, 10, 100, ...). -/
def decimalDigit (v : Int) (p : Nat) : Char := Nat.digitChar (v.toNat / p % 10)

/-- A broken-down time, for evaluating `formatTime` on concrete instants. -/
structure CivilTime where
  year : Int
  month : Int
  day : Int
  hour : Int
  minute : Int
  second : Int
  nanosecond : Int

/-- The accessors of a broken-down time. -/
def civilCalendar : Calendar CivilTime :=
  { Year := CivilTime.year, Month := CivilTime.month, Day := CivilTime.day,
    Hour := CivilTime.hour, Minute := CivilTime.minute, Second := CivilTime.second,
    Nanosecond := CivilTime.nanosecond }

/-- The instant 2024-03-07 09:15:42 and 500000 ns. -/
def marchTime : CivilTime :=
  { year := 2024, month := 3, day := 7, hour := 9, minute := 15, second := 42,
    nanosecond := 500000 }

/-- The last nanosecond of the year 9999. -/
def lastTime : CivilTime :=
  { year := 9999, month := 12, day := 31, hour := 23, minute := 59, second := 59,
    nanosecond := 999999999 }

/-- The first instant of the year 10000. -/
def wideYearTime : CivilTime :=
  { year := 10000, month := 1, day := 1, hour := 0, minute := 0, second := 0,
    nanosecond := 0 }

/-- A query instrumented to record, in the world, the options of every call it receives. -/
def recordingQuery {W : Type} (q : QueryFunc W) : QueryFunc (W × List NTPOptions) :=
  fun options st => ((q options st.1).1, ((q options st.1).2, st.2 ++ [options]))

/-- The object `s` with its `query` field replaced by the recording version of `q`. -/
def withRecording {W : Type} (s : syncTime W) (q : QueryFunc W) :
    syncTime (W × List NTPOptions) :=
  { clockOffset := s.clockOffset, syncPeriod := s.syncPeriod,
    query := some (recordingQuery q) }

/-! ## The offset register and its lock -/

/-- The operations of a method on the mutex `mut` and on the field `clockOffset`, in
program order. -/
inductive Access where
  | RLock
  | RUnlock
  | Lock
  | Unlock
  | load (v : Int)
  | store (v : Int)
deriving DecidableEq, Repr

/-- The accesses of `ClockOffset`: `RLock`, the read of the field, `RUnlock`. -/
def syncTime.ClockOffsetAccesses {W : Type} (s : syncTime W) : List Access :=
  [Access.RLock, Access.load s.clockOffset, Access.RUnlock]

/-- The accesses of `setClockOffset`: `Lock`, the assignment of the field, `Unlock`. -/
def syncTime.setClockOffsetAccesses {W : Type} (_s : syncTime W) (clockOffset : Int) :
    List Access :=
  [Access.Lock, Access.store clockOffset, Access.Unlock]

/-- The accesses of `CurrentTime`: `time.Now().Add(s.clockOffset)` reads the field and
calls no method of the mutex. -/
def syncTime.CurrentTimeAccesses {W : Type} (s : syncTime W) : List Access :=
  [Access.load s.clockOffset]

/-- The accesses of `FormattedCurrentTime`: those of the `CurrentTime` call; `formatTime`
touches neither the mutex nor the field. -/
def syncTime.FormattedCurrentTimeAccesses {W : Type} (s : syncTime W) : List Access :=
  s.CurrentTimeAccesses

/-- The object after a list of accesses: a store assigns the field, nothing else changes. -/
def applyAccesses {W : Type} (s : syncTime W) : List Access → syncTime W
  | [] => s
  | Access.store v :: rest => applyAccesses { s with clockOffset := v } rest
  | _ :: rest => applyAccesses s rest

/-- Whether every load and store of a list of accesses happens while the caller holds
the mutex; `held` counts the locks taken and not yet released. -/
def accessesUnderLock : Nat → List Access → Bool
  | _, [] => true
  | held, Access.RLock :: rest => accessesUnderLock (held + 1) rest
  | held, Access.Lock :: rest => accessesUnderLock (held + 1) rest
  | held, Access.RUnlock :: rest => accessesUnderLock (held - 1) rest
  | held, Access.Unlock :: rest => accessesUnderLock (held - 1) rest
  | held, Access.load _ :: rest => decide (0 < held) && accessesUnderLock held rest
  | held, Access.store _ :: rest => decide (0 < held) && accessesUnderLock held rest

end ntp

/-! ## Go values shared by the packages `mock` and `block` -/

namespace golang

/-- A byte. -/
abbrev Byte := Fin 256

/-- A Go byte slice `[]byte`; `none` is the nil slice. -/
abbrev Bytes := Option (List Byte)

/-- The conversion `string(b)`, a Go string being its bytes: the nil and the empty slice
both give the empty string. -/
def stringOf (b : Bytes) : List Byte := b.getD []

/-- The builtin `len` on a byte slice. -/
def len (b : Bytes) : Nat := (b.getD []).length

/-- The conversion `[]byte(s)` of a string. -/
def bytesOf (s : List Byte) : Bytes := some s

/-- The function `bytes.Equal`: equality of contents, a nil slice being an empty one. -/
def bytesEqual (a b : Bytes) : Bool := decide (stringOf a = stringOf b)

/-- Reduction to Go's `int` (64 bits, two's complement). -/
def toInt (x : Int) : Int :=
  (x + 9223372036854775808) % 18446744073709551616 - 9223372036854775808

/-- The conversion `uint64(x)`, also the reduction of a `uint64` sum. -/
def toUint64 (x : Int) : Nat := (x % 18446744073709551616).toNat

end golang

/-! ## Package `mock`: `src/process/mock/storerMock.go` -/

namespace mock

open golang

/-- Run-time panics that the statements of `StorerMock` can raise. -/
inductive Panic where
  | assignmentToEntryInNilMap
deriving DecidableEq, Repr

/-- The errors that `StorerMock` returns. `keyNotFound key` stands for
`fmt.Errorf("key: %s not found", base64.StdEncoding.EncodeToString(key))`. -/
inductive Error where
  | keyNotFound (key : List Byte)
  | notImplemented
deriving DecidableEq, Repr

/-- A Go `map[string][]byte` that is not nil: finitely many entries, one per key. -/
abbrev GoMap := AList (fun _ : List Byte => Bytes)

/-- The two-result map read `val, ok := m[k]`; `none` is `ok = false`. It also works on
the nil map. -/
def mapIndex (m : Option GoMap) (k : List Byte) : Option Bytes :=
  match m with
  | none => none
  | some entries => entries.lookup k

/-- StorerMock: the field `data` (`none` is the nil map of the zero value). -/
structure StorerMock where
  data : Option GoMap
deriving DecidableEq

/-- NewStorerMock allocates an empty map. -/
def NewStorerMock : StorerMock := { data := some ∅ }

/-- Put: `sm.data[string(key)] = data`, which panics on a nil map; returns nil. -/
def StorerMock.Put (sm : StorerMock) (key data : Bytes) :
    Except Panic (StorerMock × Option Error) :=
  match sm.data with
  | none => .error Panic.assignmentToEntryInNilMap
  | some m => .ok ({ data := some (m.insert (stringOf key) data) }, none)

/-- Get: the value under `string(key)`, or nil and a not-found error. -/
def StorerMock.Get (sm : StorerMock) (key : Bytes) : Bytes × Option Error :=
  match mapIndex sm.data (stringOf key) with
  | none => (none, some (Error.keyNotFound (stringOf key)))
  | some val => (val, none)

/-- GetFromEpoch ignores the epoch. -/
def StorerMock.GetFromEpoch (sm : StorerMock) (key : Bytes) (_epoch : Nat) :
    Bytes × Option Error :=
  sm.Get key

/-- GetBulkFromEpoch: a fresh map filled, key after key, with the values that `Get`
finds; a key whose `Get` fails is skipped. -/
def StorerMock.GetBulkFromEpoch (sm : StorerMock) (keys : List Bytes) (_epoch : Nat) :
    GoMap × Option Error :=
  (keys.foldl
    (fun retValue key =>
      match sm.Get key with
      | (_, some _) => retValue
      | (value, none) => retValue.insert (stringOf key) value)
    ∅, none)

/-- Remove: `delete(sm.data, string(key))`, a no-op on a nil map; returns nil. -/
def StorerMock.Remove (sm : StorerMock) (key : Bytes) : StorerMock × Option Error :=
  match sm.data with
  | none => (sm, none)
  | some m => ({ data := some (m.erase (stringOf key)) }, none)

/-- A call of one of the methods above. -/
inductive Call where
  | Put (key data : Bytes)
  | Remove (key : Bytes)
  | Get (key : Bytes)
  | GetFromEpoch (key : Bytes) (epoch : Nat)
  | GetBulkFromEpoch (keys : List Bytes) (epoch : Nat)
deriving DecidableEq

/-- The store after one call; the reading methods return it as it was. -/
def StorerMock.call (sm : StorerMock) : Call → Except Panic StorerMock
  | Call.Put key data =>
    match sm.Put key data with
    | .error e => .error e
    | .ok (sm1, _) => .ok sm1
  | Call.Remove key => .ok (sm.Remove key).1
  | Call.Get _ => .ok sm
  | Call.GetFromEpoch _ _ => .ok sm
  | Call.GetBulkFromEpoch _ _ => .ok sm

/-- The store after a sequence of calls. -/
def StorerMock.run (sm : StorerMock) : List Call → Except Panic StorerMock
  | [] => .ok sm
  | c :: rest =>
    match sm.call c with
    | .error e => .error e
    | .ok sm1 => StorerMock.run sm1 rest

/-- Whether a call is a `Put` on the key `k`. -/
def Call.putsKey (k : List Byte) : Call → Bool
  | Call.Put key _ => decide (stringOf key = k)
  | _ => false

/-- Whether a call is a `Put` or a `Remove` on the key `k`. -/
def Call.writesKey (k : List Byte) : Call → Bool
  | Call.Put key _ => decide (stringOf key = k)
  | Call.Remove key => decide (stringOf key = k)
  | _ => false

/-- A first key. -/
def keyA : Bytes := some [1, 2]

/-- A second key. -/
def keyB : Bytes := some [3]

/-- A key that is never stored. -/
def keyC : Bytes := some [9]

/-- A first value. -/
def valX : Bytes := some [10]

/-- A second value. -/
def valY : Bytes := some [20, 21]

/-- A sequence of calls: two stores, a read, a removal and an overwrite. -/
def exampleCalls : List Call :=
  [Call.Put keyA valX, Call.Put keyB valY, Call.Get keyA, Call.Remove keyB,
   Call.Put keyA valY]

/-- A store holding `valX` under `keyA` and `valY` under `keyB`. -/
def exampleStore : StorerMock :=
  { data := some (((∅ : GoMap).insert (stringOf keyA) valX).insert (stringOf keyB) valY) }

end mock

/-! ## Package `block`: `src/process/block/metrics.go` -/

namespace block

open golang

/-- The metric keys of package `core` that the two functions below use. -/
inductive Metric where
  | MetricCountConsensusAcceptedBlocks
  | MetricNumTxInBlock
  | MetricNumMiniBlocks
  | MetricMiniBlocksSize
deriving DecidableEq, Repr

/-- A call received by the `core.AppStatusHandler`. -/
inductive StatusCall where
  | Increment (key : Metric)
  | SetUInt64Value (key : Metric) (value : Nat)
deriving DecidableEq, Repr

/-- The loop `for i := 0; i < mbLen; i++` of `getMetricsFromBlockBody` over the
miniblocks still to visit: `totalTxCount` is an `int`, `miniblocksSize` a `uint64`, and
the marshalizer (an interface, hence a transformer of its world `M`) returns a byte slice
and an error. `TxHashes` is the field of that name of a miniblock. -/
def bodyLoop {MB M : Type} (TxHashes : MB → List Bytes)
    (Marshal : MB → M → (Bytes × Option String) × M) :
    List MB → Int → Nat → M → Int × Nat × M
  | [], totalTxCount, miniblocksSize, m => (totalTxCount, miniblocksSize, m)
  | mb :: rest, totalTxCount, miniblocksSize, m =>
    let totalTxCount1 := toInt (totalTxCount + (TxHashes mb).length)
    let res := Marshal mb m
    match res.1.2 with
    | none =>
      bodyLoop TxHashes Marshal rest totalTxCount1
        (toUint64 (miniblocksSize + toUint64 (len res.1.1))) res.2
    | some _ => bodyLoop TxHashes Marshal rest totalTxCount1 miniblocksSize res.2

/-- The function getMetricsFromBlockBody: the calls made on the status handler, in order,
and the world of the marshalizer afterwards. -/
def getMetricsFromBlockBody {MB M : Type} (TxHashes : MB → List Bytes)
    (Marshal : MB → M → (Bytes × Option String) × M) (body : List MB) (m : M) :
    List StatusCall × M :=
  let mbLen : Int := body.length
  let res := bodyLoop TxHashes Marshal body 0 0 m
  ([StatusCall.SetUInt64Value Metric.MetricNumTxInBlock (toUint64 res.1),
    StatusCall.SetUInt64Value Metric.MetricNumMiniBlocks (toUint64 mbLen),
    StatusCall.SetUInt64Value Metric.MetricMiniBlocksSize res.2.1], res.2.2)

/-- The loop `for _, publicKey := range publicKeys` of `estimateRewardsForMetachain`. -/
def consensusLoop (ownPublicKey : Bytes) : List (List Byte) → Bool → Bool
  | [], isInConsensus => isInConsensus
  | publicKey :: rest, isInConsensus =>
    if bytesEqual (bytesOf publicKey) ownPublicKey then consensusLoop ownPublicKey rest true
    else consensusLoop ownPublicKey rest isInConsensus

/-- The loop `for i := 0; i < numBlockHeaders; i++` of `estimateRewardsForMetachain`,
with a bound on the iterations; `i` stays below `numBlockHeaders`, so `i++` cannot
overflow. -/
def incrementLoop : Nat → Int → Int → List StatusCall → List StatusCall
  | 0, _, _, calls => calls
  | fuel + 1, i, numBlockHeaders, calls =>
    if i < numBlockHeaders then
      incrementLoop fuel (i + 1) numBlockHeaders
        (calls ++ [StatusCall.Increment Metric.MetricCountConsensusAcceptedBlocks])
    else calls

/-- The function estimateRewardsForMetachain: the calls made on the status handler. The
second loop gets `numBlockHeaders` iterations, which is as many as it can run. -/
def estimateRewardsForMetachain (publicKeys : List (List Byte)) (ownPublicKey : Bytes)
    (numBlockHeaders : Int) : List StatusCall :=
  let isInConsensus := consensusLoop ownPublicKey publicKeys false
  if !isInConsensus || numBlockHeaders == 0 then []
  else incrementLoop numBlockHeaders.toNat 0 numBlockHeaders []

/-- The results of marshalling the miniblocks of a body in order, from world `m`. -/
def marshalResults {MB M : Type} (Marshal : MB → M → (Bytes × Option String) × M) :
    List MB → M → List (Bytes × Option String)
  | [], _ => []
  | mb :: rest, m => (Marshal mb m).1 :: marshalResults Marshal rest (Marshal mb m).2

/-- The length that a marshalling result adds to the size: 0 when it failed. -/
def marshalledLength (r : Bytes × Option String) : Nat :=
  match r.2 with
  | none => len r.1
  | some _ => 0

/-- The number of transaction hashes of a body. -/
def txTotal {MB : Type} (TxHashes : MB → List Bytes) (body : List MB) : Nat :=
  (body.map fun mb => (TxHashes mb).length).sum

/-- The sum of the marshalled lengths of the marshallings that succeeded. -/
def sizeTotal (results : List (Bytes × Option String)) : Nat :=
  (results.map marshalledLength).sum

/-- A marshalizer without state that fails on a miniblock of two hashes and otherwise
returns `3 * n + 1` bytes for a miniblock of `n` hashes. -/
def exampleMarshal (mb : List Bytes) (m : Unit) : (Bytes × Option String) × Unit :=
  if mb.length = 2 then ((none, some "cannot marshal"), m)
  else ((some (List.replicate (3 * mb.length + 1) 0), none), m)

/-- A body of three miniblocks with one, two and three hashes. -/
def exampleBody : List (List Bytes) :=
  [[some [1]], [some [2], some [3]], [some [4], some [5], none]]

end block

namespace ntp

/-! ## Arithmetic of the 64-bit wrap-around -/

theorem wrapInt64_of_isInt64 {x : Int} (h : isInt64 x) : wrapInt64 x = x := by
  unfold isInt64 at h; unfold wrapInt64; omega

theorem isInt64_wrapInt64 (x : Int) : isInt64 (wrapInt64 x) := by
  unfold isInt64 wrapInt64; omega

theorem wrapInt64_wrap_add (a b : Int) : wrapInt64 (wrapInt64 a + b) = wrapInt64 (a + b) := by
  unfold wrapInt64; omega

theorem isInt64_tdiv {a b : Int} (ha : isInt64 a) (hb : 0 < b) : isInt64 (Int.tdiv a b) := by
  unfold isInt64 at *
  rcases le_or_lt 0 a with h | h
  · rw [Int.tdiv_eq_ediv h hb.le]
    have h1 : a / b ≤ a := Int.ediv_le_self b h
    have h2 : 0 ≤ a / b := Int.ediv_nonneg h hb.le
    omega
  · have hn : 0 ≤ -a := by omega
    have e : Int.tdiv a b = -((-a) / b) := by
      rw [← Int.tdiv_eq_ediv hn hb.le, Int.neg_tdiv, neg_neg]
    rw [e]
    have h1 : (-a) / b ≤ -a := Int.ediv_le_self b hn
    have h2 : 0 ≤ (-a) / b := Int.ediv_nonneg hn hb.le
    omega

theorem wrappedMean_eq_truncatedMean {xs : List Int} (h : isInt64 xs.sum) :
    wrappedMean xs = truncatedMean xs := by
  unfold wrappedMean truncatedMean
  rw [wrapInt64_of_isInt64 h]

/-! ## The sampling loop -/

theorem outcomes_length {W : Type} (q : QueryFunc W) :
    ∀ (n : Nat) (w : W), (outcomes q n w).length = n := by
  intro n
  induction n with
  | zero => intro w; rfl
  | succ n ih => intro w; simp [outcomes, ih]

theorem successOffsets_length_le (os : List QueryResult) :
    (successOffsets os).length ≤ os.length := by
  unfold successOffsets
  exact List.length_filterMap_le _ _

theorem successOffsets_eq_nil_of_failed {os : List QueryResult}
    (h : ∀ o ∈ os, o.err ≠ none) : successOffsets os = [] := by
  unfold successOffsets
  rw [List.filterMap_eq_nil_iff]
  intro o ho
  have := h o ho
  rcases o with ⟨r, err⟩
  cases err with
  | none => exact absurd rfl this
  | some e => rfl

theorem wellFormed_of_failed {o : QueryResult} (h : o.err ≠ none) : o.wellFormed :=
  Or.inl h

theorem syncLoop_ok {W : Type} (q : QueryFunc W) :
    ∀ (n : Nat) (sum cnt : Int) (w : W) (tr : List Event),
      (∀ o ∈ outcomes q n w, o.wellFormed) → isInt64 sum → 0 ≤ cnt →
      cnt + n < 9223372036854775808 →
      syncLoop q n sum cnt w tr =
        .ok (wrapInt64 (sum + (successOffsets (outcomes q n w)).sum),
             cnt + (successOffsets (outcomes q n w)).length,
             worldAfter q n w,
             tr ++ List.replicate n (Event.query NewNTPOptions)) := by
  intro n
  induction n with
  | zero =>
    intro sum cnt w tr _ hs _ _
    simp [syncLoop, outcomes, successOffsets, worldAfter, wrapInt64_of_isInt64 hs]
  | succ n ih =>
    intro sum cnt w tr hwf hs hc hb
    have hhead : (q NewNTPOptions w).1.wellFormed := hwf _ (by simp [outcomes])
    have htail : ∀ o ∈ outcomes q n (q NewNTPOptions w).2, o.wellFormed :=
      fun o ho => hwf o (by simp [outcomes, ho])
    rcases hres : q NewNTPOptions w with ⟨⟨r, err⟩, w1⟩
    rw [hres] at hhead htail
    cases err with
    | some e =>
      have := ih sum cnt w1 (tr ++ [Event.query NewNTPOptions]) htail hs hc
        (by push_cast at hb; omega)
      simp [syncLoop, outcomes, worldAfter, hres, this, successOffsets, QueryResult.offset?,
        List.replicate_succ]
    | none =>
      cases r with
      | none => exact absurd hhead (by simp [QueryResult.wellFormed])
      | some resp =>
        have hc1 : wrapInt64 (cnt + 1) = cnt + 1 :=
          wrapInt64_of_isInt64 (by unfold isInt64; push_cast at hb; omega)
        have := ih (wrapInt64 (sum + resp.ClockOffset)) (cnt + 1) w1
          (tr ++ [Event.query NewNTPOptions]) htail (isInt64_wrapInt64 _) (by omega)
          (by push_cast at hb; omega)
        simp [syncLoop, outcomes, worldAfter, hres, hc1, this, successOffsets,
          QueryResult.offset?, List.replicate_succ, wrapInt64_wrap_add]
        constructor
        · congr 1; ring
        · ring

theorem syncLoop_panics {W : Type} (q : QueryFunc W) :
    ∀ (n : Nat) (sum cnt : Int) (w : W) (tr : List Event),
      (∃ o ∈ outcomes q n w, ¬ o.wellFormed) →
      syncLoop q n sum cnt w tr = .error Panic.nilPointerDereference := by
  intro n
  induction n with
  | zero => intro sum cnt w tr h; simp [outcomes] at h
  | succ n ih =>
    intro sum cnt w tr h
    rcases hres : q NewNTPOptions w with ⟨⟨r, err⟩, w1⟩
    simp only [outcomes, hres, List.mem_cons] at h
    cases err with
    | some e =>
      have h2 : ∃ o ∈ outcomes q n w1, ¬ o.wellFormed := by
        obtain ⟨o, ho | ho, hbad⟩ := h
        · subst ho; exact absurd (by simp [QueryResult.wellFormed]) hbad
        · exact ⟨o, ho, hbad⟩
      simp [syncLoop, hres, ih _ _ w1 _ h2]
    | none =>
      cases r with
      | none => simp [syncLoop, hres]
      | some resp =>
        have h2 : ∃ o ∈ outcomes q n w1, ¬ o.wellFormed := by
          obtain ⟨o, ho | ho, hbad⟩ := h
          · subst ho; exact absurd (by simp [QueryResult.wellFormed]) hbad
          · exact ⟨o, ho, hbad⟩
        simp [syncLoop, hres, ih _ _ w1 _ h2]

/-! ## One cycle -/

/-- What `sync` returns when every sample is an error or a response. -/
theorem sync_ok {W : Type} (s : syncTime W) (q : QueryFunc W) (w : W)
    (hq : s.query = some q)
    (hwf : ∀ o ∈ outcomes q totalRequests w, o.wellFormed) :
    s.sync w =
      .ok (if successOffsets (outcomes q totalRequests w) = [] then s
           else s.setClockOffset (wrappedMean (successOffsets (outcomes q totalRequests w))),
           worldAfter q totalRequests w,
           List.replicate totalRequests (Event.query NewNTPOptions) ++
             if successOffsets (outcomes q totalRequests w) = [] then []
             else [Event.setClockOffset
                     (wrappedMean (successOffsets (outcomes q totalRequests w)))]) := by
  have hloop := syncLoop_ok q totalRequests 0 0 w [] hwf (by unfold isInt64; omega) le_rfl
    (by simp [totalRequests])
  have hlen : (successOffsets (outcomes q totalRequests w)).length ≤ 10 := by
    have := successOffsets_length_le (outcomes q totalRequests w)
    rw [outcomes_length] at this
    exact this
  unfold syncTime.sync
  rw [hq]
  simp only [hloop, zero_add, List.nil_append]
  by_cases hnil : successOffsets (outcomes q totalRequests w) = []
  · simp [hnil]
  · have hpos : 0 < (successOffsets (outcomes q totalRequests w)).length :=
      List.length_pos.mpr hnil
    have hpos' : (0 : Int) < ((successOffsets (outcomes q totalRequests w)).length : Int) := by
      exact_mod_cast hpos
    have hne : ((successOffsets (outcomes q totalRequests w)).length : Int) ≠ 0 := by omega
    have hw : wrapInt64 (Int.tdiv (wrapInt64 (successOffsets (outcomes q totalRequests w)).sum)
        ((successOffsets (outcomes q totalRequests w)).length : Int)) =
        wrappedMean (successOffsets (outcomes q totalRequests w)) :=
      wrapInt64_of_isInt64 (isInt64_tdiv (isInt64_wrapInt64 _) hpos')
    simp [hnil, hpos, int64Div, hne, hw]

/-- A sample with neither an error nor a response makes `sync` panic. -/
theorem sync_panics {W : Type} (s : syncTime W) (q : QueryFunc W) (w : W)
    (hq : s.query = some q)
    (hbad : ∃ o ∈ outcomes q totalRequests w, ¬ o.wellFormed) :
    s.sync w = .error Panic.nilPointerDereference := by
  unfold syncTime.sync
  rw [hq]
  simp [syncLoop_panics q totalRequests 0 0 w [] hbad]

/-! ## Several cycles -/

theorem sync_query_eq {W : Type} (s s1 : syncTime W) (w w1 : W) (tr : List Event)
    (h : s.sync w = .ok (s1, w1, tr)) : s1.query = s.query ∧ s1.syncPeriod = s.syncPeriod := by
  cases hq : s.query with
  | none =>
    unfold syncTime.sync at h
    rw [hq] at h
    simp only [Except.ok.injEq, Prod.mk.injEq] at h
    rw [← h.1, hq]
    exact ⟨rfl, rfl⟩
  | some q =>
    by_cases hwf : ∀ o ∈ outcomes q totalRequests w, o.wellFormed
    · rw [sync_ok s q w hq hwf] at h
      simp only [Except.ok.injEq, Prod.mk.injEq] at h
      rw [← h.1, ← hq]
      split <;> exact ⟨rfl, rfl⟩
    · rw [sync_panics s q w hq (by push_neg at hwf; exact hwf)] at h
      cases h

/-- Running cycles: the run succeeds, a run of failed cycles keeps the offset, and the
last cycle with a success decides it. -/
theorem StartSync_ok {W : Type} (q : QueryFunc W) :
    ∀ (n : Nat) (s : syncTime W) (w : W), s.query = some q →
      (∀ c ∈ cycleOutcomes q n w, ∀ o ∈ c, o.wellFormed) →
      ∃ s' w' tr, syncTime.StartSync n s w = .ok (s', w', tr) ∧
        ((∀ c ∈ cycleOutcomes q n w, successOffsets c = []) →
          s'.ClockOffset = s.ClockOffset) ∧
        (∀ pre c post, cycleOutcomes q n w = pre ++ c :: post →
          successOffsets c ≠ [] → (∀ c' ∈ post, successOffsets c' = []) →
          s'.ClockOffset = wrappedMean (successOffsets c)) := by
  intro n
  induction n with
  | zero =>
    intro s w _ _
    refine ⟨s, w, [], rfl, fun _ => rfl, ?_⟩
    intro pre c post h
    simp [cycleOutcomes] at h
  | succ n ih =>
    intro s w hq hwf
    have hwf0 : ∀ o ∈ outcomes q totalRequests w, o.wellFormed :=
      hwf _ (by simp [cycleOutcomes])
    have hs := sync_ok s q w hq hwf0
    obtain ⟨hq1, _⟩ := sync_query_eq s _ w _ _ hs
    obtain ⟨s', w', tr, hrun, hkeep, hlast⟩ :=
      ih _ (worldAfter q totalRequests w) (hq1.trans hq)
        (fun c hc => hwf c (by simp [cycleOutcomes, hc]))
    refine ⟨s', w', _, by simp only [syncTime.StartSync, hs, hrun]; rfl, ?_, ?_⟩
    · intro hall
      have h0 : successOffsets (outcomes q totalRequests w) = [] :=
        hall _ (by simp [cycleOutcomes])
      rw [hkeep (fun c hc => hall c (by simp [cycleOutcomes, hc]))]
      simp [h0]
    · intro pre c post hsplit hc hpost
      cases pre with
      | nil =>
        simp only [cycleOutcomes, List.nil_append, List.cons.injEq] at hsplit
        obtain ⟨hc0, hrest⟩ := hsplit
        rw [hkeep (by rw [hrest]; exact hpost)]
        rw [hc0]
        simp [hc, syncTime.setClockOffset, syncTime.ClockOffset]
      | cons c0 pre' =>
        simp only [cycleOutcomes, List.cons_append, List.cons.injEq] at hsplit
        exact hlast pre' c post hsplit.2 hc hpost

/-! ## Decimal formatting -/

theorem fmtDigits_append : ∀ (fuel u : Nat) (buf : List Char),
    fmtDigits fuel u buf = fmtDigits fuel u [] ++ buf := by
  intro fuel
  induction fuel with
  | zero => intro u buf; simp [fmtDigits]
  | succ f ih =>
    intro u buf
    by_cases h : u ≥ 10
    · simp only [fmtDigits, h, if_true]
      rw [ih (u / 10) (Nat.digitChar (u % 10) :: buf), ih (u / 10) [Nat.digitChar (u % 10)]]
      simp
    · simp [fmtDigits, h]

theorem fmtDigits_of_lt_ten (fuel u : Nat) (h : u < 10) :
    fmtDigits fuel u [] = [Nat.digitChar u] := by
  cases fuel with
  | zero => simp [fmtDigits, Nat.mod_eq_of_lt h]
  | succ f => simp [fmtDigits, Nat.not_le.mpr h]

theorem fixedDigits_zero : ∀ k : Nat, fixedDigits k 0 = List.replicate k '0' := by
  intro k
  induction k with
  | zero => rfl
  | succ k ih =>
    simp only [fixedDigits, Nat.zero_div, ih, Nat.zero_mod]
    rw [List.replicate_succ']
    rfl

theorem fixedDigits_length : ∀ k n : Nat, (fixedDigits k n).length = k := by
  intro k
  induction k with
  | zero => intro n; rfl
  | succ k ih => intro n; simp [fixedDigits, ih]

theorem padZeros_snoc (k : Nat) (xs : List Char) (c : Char) :
    padZeros (k + 1) (xs ++ [c]) = padZeros k xs ++ [c] := by
  simp [padZeros]

theorem padZeros_fmtDigits : ∀ (k fuel u : Nat), u < 10 ^ (k + 1) → k ≤ fuel →
    padZeros (k + 1) (fmtDigits fuel u []) = fixedDigits (k + 1) u := by
  intro k
  induction k with
  | zero =>
    intro fuel u hu _
    have hu' : u < 10 := by simpa using hu
    rw [fmtDigits_of_lt_ten fuel u hu']
    simp [padZeros, fixedDigits, Nat.mod_eq_of_lt hu']
  | succ k ih =>
    intro fuel u hu hf
    obtain ⟨f, rfl⟩ : ∃ f, fuel = f + 1 := ⟨fuel - 1, by omega⟩
    by_cases h : u ≥ 10
    · have hdiv : u / 10 < 10 ^ (k + 1) := by
        rw [Nat.div_lt_iff_lt_mul (by norm_num)]
        rw [pow_succ] at hu
        exact hu
      simp only [fmtDigits, h, if_true]
      rw [fmtDigits_append, padZeros_snoc, ih f (u / 10) hdiv (by omega)]
      rfl
    · have hu' : u < 10 := by omega
      rw [fmtDigits_of_lt_ten _ u hu']
      have hz : u / 10 = 0 := Nat.div_eq_of_lt hu'
      rw [show fixedDigits (k + 1 + 1) u = fixedDigits (k + 1) (u / 10) ++ [Nat.digitChar (u % 10)] from rfl]
      rw [hz, fixedDigits_zero, Nat.mod_eq_of_lt hu']
      simp [padZeros]

theorem fmtDigits_length_ge : ∀ (k fuel u : Nat), 10 ^ k ≤ u → k ≤ fuel →
    k + 1 ≤ (fmtDigits fuel u []).length := by
  intro k
  induction k with
  | zero =>
    intro fuel u _ _
    cases fuel with
    | zero => simp [fmtDigits]
    | succ f =>
      by_cases h : u ≥ 10
      · simp only [fmtDigits, h, if_true]
        rw [fmtDigits_append]; simp
      · simp [fmtDigits, h]
  | succ k ih =>
    intro fuel u hu hf
    obtain ⟨f, rfl⟩ : ∃ f, fuel = f + 1 := ⟨fuel - 1, by omega⟩
    have h10 : 10 ≤ u := le_trans (by
      calc 10 = 10 ^ 1 := by norm_num
        _ ≤ 10 ^ (k + 1) := Nat.pow_le_pow_right (by norm_num) (by omega)) hu
    have hdiv : 10 ^ k ≤ u / 10 := by
      rw [Nat.le_div_iff_mul_le (by norm_num)]
      rw [pow_succ] at hu
      exact hu
    simp only [fmtDigits, ge_iff_le, h10, if_true]
    rw [fmtDigits_append]
    have := ih f (u / 10) hdiv (by omega)
    simp
    omega


theorem padZeros_of_le {p : Nat} {xs : List Char} (h : p ≤ xs.length) : padZeros p xs = xs := by
  simp [padZeros, Nat.sub_eq_zero_of_le h]

theorem fmtInteger_of_lt (p : Nat) (v : Int) (h0 : 0 ≤ v) (hv : v.toNat < 10 ^ (p + 1))
    (hp : p ≤ 20) : fmtInteger (p + 1) v = fixedDigits (p + 1) v.toNat := by
  have hn : v.natAbs = v.toNat := by omega
  unfold fmtInteger
  simp only [Nat.add_one_ne_zero, false_and, if_false, Int.not_lt.mpr h0, hn]
  exact padZeros_fmtDigits p 20 v.toNat hv hp

theorem fmtInteger_wide (prec k : Nat) (v : Int) (h0 : 0 ≤ v) (hlo : 10 ^ k ≤ v.toNat)
    (hhi : v.toNat < 10 ^ (k + 1)) (hk : k ≤ 20) (hpk : prec ≤ k + 1) :
    fmtInteger prec v = fixedDigits (k + 1) v.toNat := by
  have hn : v.natAbs = v.toNat := by omega
  have hlen := fmtDigits_length_ge k 20 v.toNat hlo hk
  have hpad := padZeros_fmtDigits k 20 v.toNat hhi hk
  rw [padZeros_of_le hlen] at hpad
  unfold fmtInteger
  have hu0 : v.toNat ≠ 0 := by
    have : 0 < 10 ^ k := Nat.pos_pow_of_pos k (by norm_num)
    omega
  have hp0 : ¬ (prec = 0 ∧ v.toNat = 0) := fun h => hu0 h.2
  simp only [hn, hp0, if_false, Int.not_lt.mpr h0]
  rw [padZeros_of_le (by omega), hpad]

/-! ## The claims -/

/-- C1, as amended: for every prior offset and every ten sample outcomes (each an error
or a response) of one `sync` cycle with at least one success, when the exact sum of the
successful offsets lies in the signed 64-bit range, `ClockOffset` after `sync` is that
sum divided by the number of successes, truncated toward zero, whatever the prior value. -/
theorem C1_sync_publishes_truncated_mean {W : Type} (s : syncTime W) (q : QueryFunc W)
    (w : W) (hq : s.query = some q)
    (hwf : ∀ o ∈ outcomes q totalRequests w, o.wellFormed)
    (hsucc : successOffsets (outcomes q totalRequests w) ≠ [])
    (hrange : isInt64 (successOffsets (outcomes q totalRequests w)).sum) :
    ∃ s' tr, s.sync w = .ok (s', worldAfter q totalRequests w, tr) ∧
      s'.ClockOffset = truncatedMean (successOffsets (outcomes q totalRequests w)) := by
  refine ⟨_, _, sync_ok s q w hq hwf, ?_⟩
  simp [hsucc, syncTime.setClockOffset, syncTime.ClockOffset,
    wrappedMean_eq_truncatedMean hrange]

/-- C1, witness: 50ms, 60ms and 70ms among seven failures publish 60ms over a prior
offset of 5ns, and a sum of -7ns over two successes publishes -3ns. -/
theorem C1_sync_publishes_truncated_mean_witness :
    ((mockSync 5).query = some scriptedQuery ∧
      (∀ o ∈ outcomes scriptedQuery totalRequests threeOfTen, o.wellFormed) ∧
      successOffsets (outcomes scriptedQuery totalRequests threeOfTen) ≠ [] ∧
      isInt64 (successOffsets (outcomes scriptedQuery totalRequests threeOfTen)).sum ∧
      ∃ s' tr, (mockSync 5).sync threeOfTen =
          .ok (s', worldAfter scriptedQuery totalRequests threeOfTen, tr) ∧
        s'.ClockOffset =
          truncatedMean (successOffsets (outcomes scriptedQuery totalRequests threeOfTen))) ∧
    truncatedMean (successOffsets (outcomes scriptedQuery totalRequests threeOfTen)) = 60000000 ∧
    offsetAfter ((mockSync 5).sync threeOfTen) = .ok 60000000 ∧
    (successOffsets (outcomes scriptedQuery totalRequests negativeSamples)).sum = -7 ∧
    offsetAfter ((mockSync 5).sync negativeSamples) = .ok (-3) :=
  ⟨⟨rfl, by decide, by decide, by decide,
    C1_sync_publishes_truncated_mean (mockSync 5) scriptedQuery threeOfTen rfl
      (by decide) (by decide) (by decide)⟩, by decide, rfl, by decide, rfl⟩

/-- C1, counterexample: two successes of 2^62 ns each (both 64-bit durations) and eight
failures have exact mean 2^62 ns, yet `sync` stores -2^62 ns: the running sum wraps. -/
theorem C1_counterexample :
    (mockSync 0).query = some scriptedQuery ∧
    (∀ o ∈ outcomes scriptedQuery totalRequests overflowSamples, o.wellFormed) ∧
    (∀ x ∈ successOffsets (outcomes scriptedQuery totalRequests overflowSamples), isInt64 x) ∧
    successOffsets (outcomes scriptedQuery totalRequests overflowSamples) ≠ [] ∧
    truncatedMean (successOffsets (outcomes scriptedQuery totalRequests overflowSamples)) =
      4611686018427387904 ∧
    offsetAfter ((mockSync 0).sync overflowSamples) = .ok (-4611686018427387904) := by
  exact ⟨rfl, by decide, by decide, by decide, by decide, rfl⟩

/-- C2: for every prior offset, if the query is nil or every one of the ten samples of a
cycle returns an error, `sync` returns normally and leaves the object, hence
`ClockOffset`, exactly as it was, writing nothing. -/
theorem C2_all_failed_keeps_offset {W : Type} (s : syncTime W) (w : W)
    (hfail : ∀ q, s.query = some q → ∀ o ∈ outcomes q totalRequests w, o.err ≠ none) :
    ∃ s' w' tr, s.sync w = .ok (s', w', tr) ∧ s' = s ∧
      s'.ClockOffset = s.ClockOffset ∧ offsetWrites tr = [] := by
  cases hq : s.query with
  | none =>
    refine ⟨s, w, [], ?_, rfl, rfl, rfl⟩
    unfold syncTime.sync
    rw [hq]
  | some q =>
    have hnil := successOffsets_eq_nil_of_failed (hfail q hq)
    have hs := sync_ok s q w hq (fun o ho => wellFormed_of_failed (hfail q hq o ho))
    simp only [hnil, if_true, List.append_nil] at hs
    refine ⟨s, _, _, hs, rfl, rfl, ?_⟩
    simp [offsetWrites, List.filterMap_replicate]

/-- C2, witness: a stored offset of 60ms survives a cycle of ten failures. -/
theorem C2_all_failed_keeps_offset_witness :
    (∀ q, (mockSync 60000000).query = some q →
      ∀ o ∈ outcomes q totalRequests allFailed, o.err ≠ none) ∧
    (∃ s' w' tr, (mockSync 60000000).sync allFailed = .ok (s', w', tr) ∧
      s' = mockSync 60000000 ∧ s'.ClockOffset = (mockSync 60000000).ClockOffset ∧
      offsetWrites tr = []) ∧
    offsetAfter ((mockSync 60000000).sync allFailed) = .ok 60000000 :=
  have h : ∀ q, (mockSync 60000000).query = some q →
      ∀ o ∈ outcomes q totalRequests allFailed, o.err ≠ none := by
    intro q hq
    simp only [mockSync, Option.some.injEq] at hq
    subst hq
    decide
  ⟨h, C2_all_failed_keeps_offset (mockSync 60000000) allFailed h, rfl⟩

/-- C3, as amended: after any number of cycles run on `NewSyncTime(p)` whose samples are
each an error or a response, the stored offset is zero if no cycle had a success, and
otherwise the truncated mean of the successful offsets of the most recent cycle that had
one, provided the exact sum of those offsets lies in the signed 64-bit range; later
cycles without a success never reset it. -/
theorem C3_offset_is_mean_of_last_successful_cycle {W : Type}
    (QueryWithOptions : String → QueryOptions → W → QueryResult × W) (syncPeriod : Int)
    (n : Nat) (w : W)
    (hwf : ∀ c ∈ cycleOutcomes (queryNTP QueryWithOptions) n w, ∀ o ∈ c, o.wellFormed) :
    ∃ s' w' tr,
      syncTime.StartSync n (NewSyncTime QueryWithOptions syncPeriod) w = .ok (s', w', tr) ∧
      ((∀ c ∈ cycleOutcomes (queryNTP QueryWithOptions) n w, successOffsets c = []) →
        s'.ClockOffset = 0) ∧
      (∀ pre c post, cycleOutcomes (queryNTP QueryWithOptions) n w = pre ++ c :: post →
        successOffsets c ≠ [] → (∀ c' ∈ post, successOffsets c' = []) →
        isInt64 (successOffsets c).sum →
        s'.ClockOffset = truncatedMean (successOffsets c)) := by
  obtain ⟨s', w', tr, hrun, hkeep, hlast⟩ :=
    StartSync_ok (queryNTP QueryWithOptions) n (NewSyncTime QueryWithOptions syncPeriod) w
      rfl hwf
  refine ⟨s', w', tr, hrun, fun hall => hkeep hall, ?_⟩
  intro pre c post hsplit hc hpost hrange
  rw [hlast pre c post hsplit hc hpost, wrappedMean_eq_truncatedMean hrange]

/-- C3, witness: a cycle with successes of 50ms, 60ms and 70ms followed by a cycle of
ten failures leaves 60ms stored. -/
theorem C3_offset_is_mean_of_last_successful_cycle_witness :
    (∀ c ∈ cycleOutcomes (queryNTP scriptedQueryWithOptions) 2 (threeOfTen ++ allFailed),
      ∀ o ∈ c, o.wellFormed) ∧
    (∃ s' w' tr,
      syncTime.StartSync 2 (NewSyncTime scriptedQueryWithOptions 1000000000)
        (threeOfTen ++ allFailed) = .ok (s', w', tr) ∧
      ((∀ c ∈ cycleOutcomes (queryNTP scriptedQueryWithOptions) 2 (threeOfTen ++ allFailed),
          successOffsets c = []) → s'.ClockOffset = 0) ∧
      (∀ pre c post,
        cycleOutcomes (queryNTP scriptedQueryWithOptions) 2 (threeOfTen ++ allFailed) =
          pre ++ c :: post →
        successOffsets c ≠ [] → (∀ c' ∈ post, successOffsets c' = []) →
        isInt64 (successOffsets c).sum →
        s'.ClockOffset = truncatedMean (successOffsets c))) ∧
    cycleOutcomes (queryNTP scriptedQueryWithOptions) 2 (threeOfTen ++ allFailed) =
      [threeOfTen, allFailed] ∧
    offsetAfter (syncTime.StartSync 2 (NewSyncTime scriptedQueryWithOptions 1000000000)
      (threeOfTen ++ allFailed)) = .ok 60000000 :=
  ⟨by decide,
   C3_offset_is_mean_of_last_successful_cycle scriptedQueryWithOptions 1000000000 2
     (threeOfTen ++ allFailed) (by decide),
   by decide, rfl⟩

/-- C3, counterexample: one cycle on a new object with two successes of 2^62 ns each;
the mean of the successful samples is 2^62 ns but -2^62 ns is stored. -/
theorem C3_counterexample :
    cycleOutcomes (queryNTP scriptedQueryWithOptions) 1 overflowSamples = [overflowSamples] ∧
    (∀ o ∈ overflowSamples, o.wellFormed) ∧
    (∀ x ∈ successOffsets overflowSamples, isInt64 x) ∧
    successOffsets overflowSamples ≠ [] ∧
    truncatedMean (successOffsets overflowSamples) = 4611686018427387904 ∧
    offsetAfter (syncTime.StartSync 1 (NewSyncTime scriptedQueryWithOptions 1000000000)
      overflowSamples) = .ok (-4611686018427387904) :=
  ⟨by decide, by decide, by decide, by decide, by decide, rfl⟩

/-- C4: for every sync period the object returned by `NewSyncTime` has `ClockOffset() = 0`,
and after any number of cycles in which every sample failed `ClockOffset()` is still 0 and
`CurrentTime()` is the raw wall-clock reading (given that adding a zero duration to a
time gives that time back, as `time.Time.Add` does). -/
theorem C4_new_object_reports_raw_time {W : Type}
    (QueryWithOptions : String → QueryOptions → W → QueryResult × W) (syncPeriod : Int) :
    (NewSyncTime QueryWithOptions syncPeriod).ClockOffset = 0 ∧
    ∀ (T : Type) (Add : T → Int → T) (now : T) (n : Nat) (w : W),
      (∀ t, Add t 0 = t) →
      (∀ c ∈ cycleOutcomes (queryNTP QueryWithOptions) n w, ∀ o ∈ c, o.err ≠ none) →
      ∃ s' w' tr,
        syncTime.StartSync n (NewSyncTime QueryWithOptions syncPeriod) w = .ok (s', w', tr) ∧
        s'.ClockOffset = 0 ∧ s'.CurrentTime Add now = now := by
  refine ⟨rfl, ?_⟩
  intro T Add now n w hAdd hfail
  obtain ⟨s', w', tr, hrun, hkeep, _⟩ :=
    StartSync_ok (queryNTP QueryWithOptions) n (NewSyncTime QueryWithOptions syncPeriod) w
      rfl (fun c hc o ho => wellFormed_of_failed (hfail c hc o ho))
  have h0 : s'.ClockOffset = 0 :=
    hkeep (fun c hc => successOffsets_eq_nil_of_failed (hfail c hc))
  refine ⟨s', w', tr, hrun, h0, ?_⟩
  unfold syncTime.CurrentTime
  unfold syncTime.ClockOffset at h0
  rw [h0, hAdd]

/-- C4, witness: times as nanosecond counts with addition; one cycle of ten failures. -/
theorem C4_new_object_reports_raw_time_witness :
    (NewSyncTime scriptedQueryWithOptions 1000000000).ClockOffset = 0 ∧
    (∀ t : Int, t + 0 = t) ∧
    (∀ c ∈ cycleOutcomes (queryNTP scriptedQueryWithOptions) 1 allFailed,
      ∀ o ∈ c, o.err ≠ none) ∧
    ∃ s' w' tr,
      syncTime.StartSync 1 (NewSyncTime scriptedQueryWithOptions 1000000000) allFailed =
        .ok (s', w', tr) ∧
      s'.ClockOffset = 0 ∧
      s'.CurrentTime (fun (t d : Int) => t + d) 1709802942000500000 = 1709802942000500000 :=
  ⟨(C4_new_object_reports_raw_time scriptedQueryWithOptions 1000000000).1,
   fun t => Int.add_zero t, by decide,
   (C4_new_object_reports_raw_time scriptedQueryWithOptions 1000000000).2 Int
     (fun t d => t + d) 1709802942000500000 1 allFailed (fun t => Int.add_zero t)
     (by decide)⟩

/-- C5: in every state and for every wall-clock reading `now`, `CurrentTime()` is `now`
plus exactly the duration `ClockOffset()` returns in that state, and
`FormattedCurrentTime()` is `formatTime` of that same corrected time. -/
theorem C5_current_time_is_now_plus_offset {W T : Type} (s : syncTime W)
    (Add : T → Int → T) (cal : Calendar T) (now : T) :
    s.CurrentTime Add now = Add now s.ClockOffset ∧
    s.FormattedCurrentTime Add cal now = s.formatTime cal (Add now s.ClockOffset) ∧
    s.FormattedCurrentTime Add cal now = s.formatTime cal (s.CurrentTime Add now) :=
  ⟨rfl, rfl, rfl⟩

/-- C6: for a time with month 1..12, day 1..31, hour 0..23, minute and second 0..59 and
nanosecond 0..999999999, `formatTime` returns, when the year is in 0..9999, exactly the 30
characters `YYYY-MM-DD hh:mm:ss.nnnnnnnnn ` (each field the zero-padded decimal digits of
its component, `-` at indexes 4 and 7, a space at 10, `:` at 13 and 16, `.` at 19 and a
space at 29); when the year has `k + 1 > 4` digits only the year field widens: the year's
`k + 1` digits are followed by the same 26 characters. -/
theorem C6_formatTime_layout {W T : Type} (s : syncTime W) (cal : Calendar T) (t : T)
    (hmo : 1 ≤ cal.Month t ∧ cal.Month t ≤ 12)
    (hd : 1 ≤ cal.Day t ∧ cal.Day t ≤ 31)
    (hh : 0 ≤ cal.Hour t ∧ cal.Hour t ≤ 23)
    (hmi : 0 ≤ cal.Minute t ∧ cal.Minute t ≤ 59)
    (hs : 0 ≤ cal.Second t ∧ cal.Second t ≤ 59)
    (hn : 0 ≤ cal.Nanosecond t ∧ cal.Nanosecond t ≤ 999999999) :
    (0 ≤ cal.Year t → cal.Year t ≤ 9999 →
      (s.formatTime cal t).data =
        [decimalDigit (cal.Year t) 1000, decimalDigit (cal.Year t) 100,
         decimalDigit (cal.Year t) 10, decimalDigit (cal.Year t) 1, '-',
         decimalDigit (cal.Month t) 10, decimalDigit (cal.Month t) 1, '-',
         decimalDigit (cal.Day t) 10, decimalDigit (cal.Day t) 1, ' ',
         decimalDigit (cal.Hour t) 10, decimalDigit (cal.Hour t) 1, ':',
         decimalDigit (cal.Minute t) 10, decimalDigit (cal.Minute t) 1, ':',
         decimalDigit (cal.Second t) 10, decimalDigit (cal.Second t) 1, '.',
         decimalDigit (cal.Nanosecond t) 100000000, decimalDigit (cal.Nanosecond t) 10000000,
         decimalDigit (cal.Nanosecond t) 1000000, decimalDigit (cal.Nanosecond t) 100000,
         decimalDigit (cal.Nanosecond t) 10000, decimalDigit (cal.Nanosecond t) 1000,
         decimalDigit (cal.Nanosecond t) 100, decimalDigit (cal.Nanosecond t) 10,
         decimalDigit (cal.Nanosecond t) 1, ' '] ∧
      (s.formatTime cal t).length = 30 ∧
      (s.formatTime cal t).data[4]? = some '-' ∧ (s.formatTime cal t).data[7]? = some '-' ∧
      (s.formatTime cal t).data[10]? = some ' ' ∧ (s.formatTime cal t).data[13]? = some ':' ∧
      (s.formatTime cal t).data[16]? = some ':' ∧ (s.formatTime cal t).data[19]? = some '.' ∧
      (s.formatTime cal t).data[29]? = some ' ') ∧
    (∀ k : Nat, 4 ≤ k → k ≤ 18 → 10 ^ k ≤ cal.Year t → cal.Year t < 10 ^ (k + 1) →
      (s.formatTime cal t).data =
        fixedDigits (k + 1) (cal.Year t).toNat ++
        ['-', decimalDigit (cal.Month t) 10, decimalDigit (cal.Month t) 1, '-',
         decimalDigit (cal.Day t) 10, decimalDigit (cal.Day t) 1, ' ',
         decimalDigit (cal.Hour t) 10, decimalDigit (cal.Hour t) 1, ':',
         decimalDigit (cal.Minute t) 10, decimalDigit (cal.Minute t) 1, ':',
         decimalDigit (cal.Second t) 10, decimalDigit (cal.Second t) 1, '.',
         decimalDigit (cal.Nanosecond t) 100000000, decimalDigit (cal.Nanosecond t) 10000000,
         decimalDigit (cal.Nanosecond t) 1000000, decimalDigit (cal.Nanosecond t) 100000,
         decimalDigit (cal.Nanosecond t) 10000, decimalDigit (cal.Nanosecond t) 1000,
         decimalDigit (cal.Nanosecond t) 100, decimalDigit (cal.Nanosecond t) 10,
         decimalDigit (cal.Nanosecond t) 1, ' '] ∧
      (s.formatTime cal t).length = k + 27) := by
  have emo : fmtInteger 2 (cal.Month t) = fixedDigits 2 (cal.Month t).toNat :=
    fmtInteger_of_lt 1 _ (by omega) (by norm_num; omega) (by norm_num)
  have ed : fmtInteger 2 (cal.Day t) = fixedDigits 2 (cal.Day t).toNat :=
    fmtInteger_of_lt 1 _ (by omega) (by norm_num; omega) (by norm_num)
  have eh : fmtInteger 2 (cal.Hour t) = fixedDigits 2 (cal.Hour t).toNat :=
    fmtInteger_of_lt 1 _ (by omega) (by norm_num; omega) (by norm_num)
  have emi : fmtInteger 2 (cal.Minute t) = fixedDigits 2 (cal.Minute t).toNat :=
    fmtInteger_of_lt 1 _ (by omega) (by norm_num; omega) (by norm_num)
  have es : fmtInteger 2 (cal.Second t) = fixedDigits 2 (cal.Second t).toNat :=
    fmtInteger_of_lt 1 _ (by omega) (by norm_num; omega) (by norm_num)
  have en : fmtInteger 9 (cal.Nanosecond t) = fixedDigits 9 (cal.Nanosecond t).toNat :=
    fmtInteger_of_lt 8 _ (by omega) (by norm_num; omega) (by norm_num)
  constructor
  · intro hy0 hy1
    have ey : fmtInteger 4 (cal.Year t) = fixedDigits 4 (cal.Year t).toNat :=
      fmtInteger_of_lt 3 _ hy0 (by norm_num; omega) (by norm_num)
    refine ⟨?_, ?_, ?_, ?_, ?_, ?_, ?_, ?_, ?_⟩
    · unfold syncTime.formatTime
      simp only [emo, ed, eh, emi, es, en, ey]
      simp [fixedDigits, decimalDigit, Nat.div_div_eq_div_mul]
    · unfold syncTime.formatTime
      simp only [emo, ed, eh, emi, es, en, ey]
      simp [String.length, fixedDigits_length]
    all_goals
      unfold syncTime.formatTime
      simp only [emo, ed, eh, emi, es, en, ey]
      simp [fixedDigits]
  · intro k hk4 hk18 hlo hhi
    have hy0 : 0 ≤ cal.Year t := le_trans (by positivity) hlo
    have ey : fmtInteger 4 (cal.Year t) = fixedDigits (k + 1) (cal.Year t).toNat := by
      apply fmtInteger_wide 4 k _ hy0 _ _ (by omega) (by omega)
      · zify; rw [Int.toNat_of_nonneg hy0]; exact hlo
      · zify; rw [Int.toNat_of_nonneg hy0]; exact hhi
    constructor
    · unfold syncTime.formatTime
      simp only [emo, ed, eh, emi, es, en, ey]
      simp [fixedDigits, decimalDigit, Nat.div_div_eq_div_mul]
    · unfold syncTime.formatTime
      simp only [emo, ed, eh, emi, es, en, ey]
      simp [String.length, fixedDigits_length]

/-- C6, witness: the two instants named by the specification, and the first instant of
the year 10000. -/
theorem C6_formatTime_layout_witness :
    ((1 ≤ civilCalendar.Month marchTime ∧ civilCalendar.Month marchTime ≤ 12) ∧
      (1 ≤ civilCalendar.Day marchTime ∧ civilCalendar.Day marchTime ≤ 31) ∧
      (0 ≤ civilCalendar.Hour marchTime ∧ civilCalendar.Hour marchTime ≤ 23) ∧
      (0 ≤ civilCalendar.Minute marchTime ∧ civilCalendar.Minute marchTime ≤ 59) ∧
      (0 ≤ civilCalendar.Second marchTime ∧ civilCalendar.Second marchTime ≤ 59) ∧
      (0 ≤ civilCalendar.Nanosecond marchTime ∧
        civilCalendar.Nanosecond marchTime ≤ 999999999) ∧
      0 ≤ civilCalendar.Year marchTime ∧ civilCalendar.Year marchTime ≤ 9999 ∧
      ((mockSync 0).formatTime civilCalendar marchTime).data =
        "2024-03-07 09:15:42.000500000 ".data ∧
      ((mockSync 0).formatTime civilCalendar marchTime).length = 30 ∧
      ((mockSync 0).formatTime civilCalendar marchTime).data[4]? = some '-' ∧
      ((mockSync 0).formatTime civilCalendar marchTime).data[7]? = some '-' ∧
      ((mockSync 0).formatTime civilCalendar marchTime).data[10]? = some ' ' ∧
      ((mockSync 0).formatTime civilCalendar marchTime).data[13]? = some ':' ∧
      ((mockSync 0).formatTime civilCalendar marchTime).data[16]? = some ':' ∧
      ((mockSync 0).formatTime civilCalendar marchTime).data[19]? = some '.' ∧
      ((mockSync 0).formatTime civilCalendar marchTime).data[29]? = some ' ') ∧
    (mockSync 0).formatTime civilCalendar marchTime = "2024-03-07 09:15:42.000500000 " ∧
    (mockSync 0).formatTime civilCalendar lastTime = "9999-12-31 23:59:59.999999999 " ∧
    (mockSync 0).formatTime civilCalendar wideYearTime = "10000-01-01 00:00:00.000000000 " :=
  ⟨⟨by decide, by decide, by decide, by decide, by decide, by decide, by decide, by decide,
    (C6_formatTime_layout (mockSync 0) civilCalendar marchTime (by decide) (by decide)
      (by decide) (by decide) (by decide) (by decide)).1 (by decide) (by decide)⟩,
   by decide, by decide, by decide⟩

theorem outcomes_recordingQuery {W : Type} (q : QueryFunc W) :
    ∀ (n : Nat) (w : W) (log : List NTPOptions),
      outcomes (recordingQuery q) n (w, log) = outcomes q n w := by
  intro n
  induction n with
  | zero => intro w log; rfl
  | succ n ih =>
    intro w log
    simp only [outcomes, recordingQuery]
    rw [← ih (q NewNTPOptions w).2 (log ++ [NewNTPOptions])]

theorem worldAfter_recordingQuery {W : Type} (q : QueryFunc W) :
    ∀ (n : Nat) (w : W) (log : List NTPOptions),
      worldAfter (recordingQuery q) n (w, log) =
        (worldAfter q n w, log ++ List.replicate n NewNTPOptions) := by
  intro n
  induction n with
  | zero => intro w log; simp [worldAfter]
  | succ n ih =>
    intro w log
    simp only [worldAfter]
    have := ih (q NewNTPOptions w).2 (log ++ [NewNTPOptions])
    simp only [recordingQuery] at this ⊢
    rw [this]
    simp [List.replicate_succ]

/-- C7: whatever mix of successes and failures the query returns, one `sync` cycle with
a non-nil query calls it exactly `totalRequests = 10` times (the world advances by ten
calls, none skipped after a failure and none repeated), and every call receives
`NewNTPOptions()`: host 127.0.0.1, port 1123, version 0, empty local address, timeout 0.
The same holds for the options that the query itself records on each call. -/
theorem C7_query_called_ten_times_with_new_options {W : Type} (s : syncTime W)
    (q : QueryFunc W) (w : W) (hq : s.query = some q)
    (hwf : ∀ o ∈ outcomes q totalRequests w, o.wellFormed) :
    (∃ s' tr, s.sync w = .ok (s', worldAfter q 10 w, tr) ∧
      queryCalls tr = List.replicate 10 NewNTPOptions ∧
      (queryCalls tr).length = 10) ∧
    (∀ log : List NTPOptions, ∃ s' tr,
      (withRecording s q).sync (w, log) =
        .ok (s', (worldAfter q 10 w, log ++ List.replicate 10 NewNTPOptions), tr)) ∧
    totalRequests = 10 ∧
    NewNTPOptions =
      { Host := "127.0.0.1", Port := 1123, Version := 0, LocalAddress := "", Timeout := 0 } := by
  refine ⟨⟨_, _, sync_ok s q w hq hwf, ?_, ?_⟩, ?_, rfl, rfl⟩
  · by_cases hnil : successOffsets (outcomes q totalRequests w) = []
    · simp [hnil, queryCalls, totalRequests, List.filterMap_replicate]
    · simp [hnil, queryCalls, totalRequests, List.filterMap_replicate]
  · by_cases hnil : successOffsets (outcomes q totalRequests w) = []
    · simp [hnil, queryCalls, totalRequests, List.filterMap_replicate]
    · simp [hnil, queryCalls, totalRequests, List.filterMap_replicate]
  · intro log
    have hwf2 : ∀ o ∈ outcomes (recordingQuery q) totalRequests (w, log), o.wellFormed := by
      rw [outcomes_recordingQuery]; exact hwf
    have h := sync_ok (withRecording s q) (recordingQuery q) (w, log) rfl hwf2
    rw [worldAfter_recordingQuery] at h
    exact ⟨_, _, h⟩

/-- C7, witness: three successes among seven failures; ten calls all the same. -/
theorem C7_query_called_ten_times_with_new_options_witness :
    (mockSync 0).query = some scriptedQuery ∧
    (∀ o ∈ outcomes scriptedQuery totalRequests threeOfTen, o.wellFormed) ∧
    (∃ s' tr, (mockSync 0).sync threeOfTen = .ok (s', worldAfter scriptedQuery 10 threeOfTen, tr) ∧
      queryCalls tr = List.replicate 10 NewNTPOptions ∧
      (queryCalls tr).length = 10) ∧
    (∀ log : List NTPOptions, ∃ s' tr,
      (withRecording (mockSync 0) scriptedQuery).sync (threeOfTen, log) =
        .ok (s', (worldAfter scriptedQuery 10 threeOfTen,
                  log ++ List.replicate 10 NewNTPOptions), tr)) ∧
    totalRequests = 10 ∧
    NewNTPOptions =
      { Host := "127.0.0.1", Port := 1123, Version := 0, LocalAddress := "", Timeout := 0 } :=
  ⟨rfl, by decide,
   C7_query_called_ten_times_with_new_options (mockSync 0) scriptedQuery threeOfTen rfl
     (by decide)⟩

theorem wrappedMean_perm {xs ys : List Int} (h : xs.Perm ys) :
    wrappedMean xs = wrappedMean ys := by
  unfold wrappedMean
  rw [h.sum_eq, h.length_eq]

/-- C8: two cycles started from the same stored offset whose ten sample outcomes are
permutations of one another end with the same stored offset (or, if an outcome is
neither an error nor a response, with the same panic). -/
theorem C8_offset_invariant_under_permutation {W : Type} (s1 s2 : syncTime W)
    (q1 q2 : QueryFunc W) (w1 w2 : W)
    (hq1 : s1.query = some q1) (hq2 : s2.query = some q2)
    (hprior : s1.ClockOffset = s2.ClockOffset)
    (hperm : (outcomes q1 totalRequests w1).Perm (outcomes q2 totalRequests w2)) :
    offsetAfter (s1.sync w1) = offsetAfter (s2.sync w2) := by
  by_cases hwf : ∀ o ∈ outcomes q1 totalRequests w1, o.wellFormed
  · have hwf2 : ∀ o ∈ outcomes q2 totalRequests w2, o.wellFormed :=
      fun o ho => hwf o (hperm.mem_iff.mpr ho)
    have hp : (successOffsets (outcomes q1 totalRequests w1)).Perm
        (successOffsets (outcomes q2 totalRequests w2)) := hperm.filterMap _
    rw [sync_ok s1 q1 w1 hq1 hwf, sync_ok s2 q2 w2 hq2 hwf2]
    by_cases hnil : successOffsets (outcomes q1 totalRequests w1) = []
    · have hnil2 : successOffsets (outcomes q2 totalRequests w2) = [] := by
        rw [hnil] at hp
        exact List.nil_perm.mp hp
      simp [hnil, hnil2, offsetAfter, hprior]
    · have hnil2 : successOffsets (outcomes q2 totalRequests w2) ≠ [] := by
        intro h
        rw [h] at hp
        exact hnil (List.perm_nil.mp hp)
      simp [hnil, hnil2, offsetAfter, syncTime.setClockOffset, syncTime.ClockOffset,
        wrappedMean_perm hp]
  · push_neg at hwf
    obtain ⟨o, ho, hbad⟩ := hwf
    rw [sync_panics s1 q1 w1 hq1 ⟨o, ho, hbad⟩,
      sync_panics s2 q2 w2 hq2 ⟨o, hperm.mem_iff.mp ho, hbad⟩]

/-- C8, witness: the samples of `threeOfTen` in reverse order store the same 60ms. -/
theorem C8_offset_invariant_under_permutation_witness :
    (mockSync 5).query = some scriptedQuery ∧
    (mockSync 5).ClockOffset = (mockSync 5).ClockOffset ∧
    (outcomes scriptedQuery totalRequests threeOfTen).Perm
      (outcomes scriptedQuery totalRequests threeOfTen.reverse) ∧
    offsetAfter ((mockSync 5).sync threeOfTen) =
      offsetAfter ((mockSync 5).sync threeOfTen.reverse) ∧
    offsetAfter ((mockSync 5).sync threeOfTen.reverse) = .ok 60000000 :=
  have hperm : (outcomes scriptedQuery totalRequests threeOfTen).Perm
      (outcomes scriptedQuery totalRequests threeOfTen.reverse) := by decide
  ⟨rfl, rfl, hperm,
   C8_offset_invariant_under_permutation (mockSync 5) (mockSync 5) scriptedQuery
     scriptedQuery threeOfTen threeOfTen.reverse rfl rfl rfl hperm,
   rfl⟩

/-- C9: if the query is nil, or each of the ten samples of a cycle is an error or a
response, `sync` returns normally: no panic and no error value. In the embedding a
division by a zero count and a read of a nil response are panics, so neither is reached:
the mean is computed only for a non-zero success count and a response is read only
when the error is nil. -/
theorem C9_sync_returns_normally {W : Type} (s : syncTime W) (w : W)
    (hwf : ∀ q, s.query = some q → ∀ o ∈ outcomes q totalRequests w, o.wellFormed) :
    ∃ s' w' tr, s.sync w = .ok (s', w', tr) := by
  cases hq : s.query with
  | none =>
    refine ⟨s, w, [], ?_⟩
    unfold syncTime.sync
    rw [hq]
  | some q => exact ⟨_, _, _, sync_ok s q w hq (hwf q hq)⟩

/-- C9, witness: samples with an error and no response, and with both, are tolerated. -/
theorem C9_sync_returns_normally_witness :
    (∀ q, (mockSync 0).query = some q →
      ∀ o ∈ outcomes q totalRequests
        [failedSample, { r := some { ClockOffset := 9, RTT := 1 }, err := some "kiss of death" },
         okSample 4],
        o.wellFormed) ∧
    ∃ s' w' tr, (mockSync 0).sync
      [failedSample, { r := some { ClockOffset := 9, RTT := 1 }, err := some "kiss of death" },
       okSample 4] = .ok (s', w', tr) :=
  have h : ∀ q, (mockSync 0).query = some q →
      ∀ o ∈ outcomes q totalRequests
        [failedSample, { r := some { ClockOffset := 9, RTT := 1 }, err := some "kiss of death" },
         okSample 4],
        o.wellFormed := by
    intro q hq
    simp only [mockSync, Option.some.injEq] at hq
    subst hq
    decide
  ⟨h, C9_sync_returns_normally (mockSync 0) _ h⟩

/-- C10: in one `sync` cycle the trace is the ten query calls followed by the writes to
the offset register: no write when no sample succeeded (the object is unchanged) and
exactly one `setClockOffset`, of the value then stored, when at least one succeeded; so
there is at most one write and it comes after all ten samples. -/
theorem C10_single_write_after_all_samples {W : Type} (s : syncTime W) (q : QueryFunc W)
    (w : W) (hq : s.query = some q)
    (hwf : ∀ o ∈ outcomes q totalRequests w, o.wellFormed) :
    ∃ s' w' tr writes, s.sync w = .ok (s', w', tr) ∧
      tr = List.replicate 10 (Event.query NewNTPOptions) ++ writes ∧
      (successOffsets (outcomes q totalRequests w) = [] → writes = [] ∧ s' = s) ∧
      (successOffsets (outcomes q totalRequests w) ≠ [] →
        writes = [Event.setClockOffset s'.ClockOffset]) ∧
      offsetWrites tr = offsetWrites writes ∧
      (offsetWrites tr).length ≤ 1 := by
  refine ⟨_, _, _, _, sync_ok s q w hq hwf, rfl, ?_, ?_, ?_, ?_⟩
  · intro hnil
    simp [hnil]
  · intro hnil
    simp [hnil, syncTime.setClockOffset, syncTime.ClockOffset]
  · simp [offsetWrites, totalRequests, List.filterMap_replicate]
  · by_cases hnil : successOffsets (outcomes q totalRequests w) = []
    · simp [hnil, offsetWrites, List.filterMap_replicate]
    · simp [hnil, offsetWrites, List.filterMap_replicate]

/-- C10, witness: with three successes the trace is ten queries then one write of 60ms. -/
theorem C10_single_write_after_all_samples_witness :
    (mockSync 5).query = some scriptedQuery ∧
    (∀ o ∈ outcomes scriptedQuery totalRequests threeOfTen, o.wellFormed) ∧
    ∃ s' w' tr writes, (mockSync 5).sync threeOfTen = .ok (s', w', tr) ∧
      tr = List.replicate 10 (Event.query NewNTPOptions) ++ writes ∧
      (successOffsets (outcomes scriptedQuery totalRequests threeOfTen) = [] →
        writes = [] ∧ s' = mockSync 5) ∧
      (successOffsets (outcomes scriptedQuery totalRequests threeOfTen) ≠ [] →
        writes = [Event.setClockOffset s'.ClockOffset]) ∧
      offsetWrites tr = offsetWrites writes ∧
      (offsetWrites tr).length ≤ 1 :=
  ⟨rfl, by decide,
   C10_single_write_after_all_samples (mockSync 5) scriptedQuery threeOfTen rfl (by decide)⟩

/-- C11: in sequential use the offset store is a single-value register: `ClockOffset()`
after `setClockOffset(d)` returns `d` from every prior state; `ClockOffset()` performs no
store, so the object after it is the object before it; after `setClockOffset(d1)` then
`setClockOffset(d2)` the register holds `d2` (the object is that of a single
`setClockOffset(d2)`); and `setClockOffset` changes neither `syncPeriod` nor `query`. -/
theorem C11_offset_store_is_a_register {W : Type} (s : syncTime W) (d d1 d2 : Int) :
    (s.setClockOffset d).ClockOffset = d ∧
    applyAccesses s (s.setClockOffsetAccesses d) = s.setClockOffset d ∧
    (∀ a ∈ s.ClockOffsetAccesses, ∀ v, a ≠ Access.store v) ∧
    applyAccesses s s.ClockOffsetAccesses = s ∧
    s.ClockOffsetAccesses = [Access.RLock, Access.load s.ClockOffset, Access.RUnlock] ∧
    ((s.setClockOffset d1).setClockOffset d2).ClockOffset = d2 ∧
    (s.setClockOffset d1).setClockOffset d2 = s.setClockOffset d2 ∧
    (s.setClockOffset d).syncPeriod = s.syncPeriod ∧
    (s.setClockOffset d).query = s.query := by
  refine ⟨rfl, rfl, ?_, rfl, rfl, rfl, rfl, rfl, rfl⟩
  intro a ha v
  simp only [syncTime.ClockOffsetAccesses, List.mem_cons, List.mem_singleton,
    List.not_mem_nil, or_false] at ha
  rcases ha with rfl | rfl | rfl <;> simp

/-- C12, what the code does: in every state `ClockOffset` reads the register
between `RLock` and `RUnlock` and `setClockOffset` writes it between `Lock` and `Unlock`,
but the read made by `CurrentTime`, and through it by `FormattedCurrentTime`, happens
with no lock held. -/
theorem C12_CurrentTime_reads_without_the_lock {W : Type} (s : syncTime W) (d : Int) :
    accessesUnderLock 0 s.ClockOffsetAccesses = true ∧
    accessesUnderLock 0 (s.setClockOffsetAccesses d) = true ∧
    s.CurrentTimeAccesses = [Access.load s.ClockOffset] ∧
    accessesUnderLock 0 s.CurrentTimeAccesses = false ∧
    accessesUnderLock 0 s.FormattedCurrentTimeAccesses = false :=
  ⟨rfl, rfl, rfl, rfl, rfl⟩

theorem sum_bounds {xs : List Int} {lo hi : Int} (h : ∀ x ∈ xs, lo ≤ x ∧ x ≤ hi) :
    lo * xs.length ≤ xs.sum ∧ xs.sum ≤ hi * xs.length := by
  induction xs with
  | nil => simp
  | cons a t ih =>
    have ha := h a (by simp)
    have ht := ih (fun x hx => h x (by simp [hx]))
    simp only [List.sum_cons, List.length_cons]
    push_cast
    constructor <;> nlinarith [ha.1, ha.2, ht.1, ht.2]

theorem tdiv_bounds {a n lo hi : Int} (hn : 0 < n) (hlo : lo * n ≤ a) (hhi : a ≤ hi * n) :
    lo ≤ Int.tdiv a n ∧ Int.tdiv a n ≤ hi := by
  rcases le_or_lt 0 a with h | h
  · rw [Int.tdiv_eq_ediv h hn.le]
    constructor
    · exact (Int.le_ediv_iff_mul_le hn).mpr hlo
    · exact Int.ediv_le_of_le_mul hn hhi
  · have hna : 0 ≤ -a := by omega
    have e : Int.tdiv a n = -((-a) / n) := by
      rw [← Int.tdiv_eq_ediv hna hn.le, Int.neg_tdiv, neg_neg]
    rw [e]
    have h1 : (-a) / n ≤ -lo := Int.ediv_le_of_le_mul hn (by linarith)
    have h2 : -hi ≤ (-a) / n := (Int.le_ediv_iff_mul_le hn).mpr (by linarith)
    constructor <;> linarith

theorem truncatedMean_bounds {xs : List Int} {lo hi : Int} (hne : xs ≠ [])
    (h : ∀ x ∈ xs, lo ≤ x ∧ x ≤ hi) : lo ≤ truncatedMean xs ∧ truncatedMean xs ≤ hi := by
  have hs := sum_bounds h
  have hpos : (0 : Int) < xs.length := by exact_mod_cast List.length_pos.mpr hne
  exact tdiv_bounds hpos hs.1 hs.2

theorem exists_min_max {xs : List Int} (hne : xs ≠ []) :
    ∃ lo ∈ xs, ∃ hi ∈ xs, ∀ x ∈ xs, lo ≤ x ∧ x ≤ hi := by
  have hne' : xs.toFinset.Nonempty := by
    obtain ⟨a, ha⟩ := List.exists_mem_of_ne_nil xs hne
    exact ⟨a, List.mem_toFinset.mpr ha⟩
  obtain ⟨lo, hlo, hmin⟩ := xs.toFinset.exists_min_image id hne'
  obtain ⟨hi, hhi, hmax⟩ := xs.toFinset.exists_max_image id hne'
  exact ⟨lo, List.mem_toFinset.mp hlo, hi, List.mem_toFinset.mp hhi,
    fun x hx => ⟨hmin x (List.mem_toFinset.mpr hx), hmax x (List.mem_toFinset.mpr hx)⟩⟩

/-- C13: for a cycle (each sample an error or a response) with at least one success whose
exact sum of successful offsets lies in the signed 64-bit range, as it does when the
running sum stays in that range, the published offset lies between the smallest and
the largest successful offset. Without the range hypothesis the bound can fail: two
successes of 2^62 ns wrap the sum and publish -2^62 ns, below both samples. -/
theorem C13_published_between_min_and_max :
    (∀ (W : Type) (s : syncTime W) (q : QueryFunc W) (w : W), s.query = some q →
      (∀ o ∈ outcomes q totalRequests w, o.wellFormed) →
      successOffsets (outcomes q totalRequests w) ≠ [] →
      isInt64 (successOffsets (outcomes q totalRequests w)).sum →
      ∃ s' tr, s.sync w = .ok (s', worldAfter q totalRequests w, tr) ∧
        ∃ lo ∈ successOffsets (outcomes q totalRequests w),
        ∃ hi ∈ successOffsets (outcomes q totalRequests w),
          (∀ x ∈ successOffsets (outcomes q totalRequests w), lo ≤ x ∧ x ≤ hi) ∧
          lo ≤ s'.ClockOffset ∧ s'.ClockOffset ≤ hi) ∧
    ((∀ o ∈ outcomes scriptedQuery totalRequests overflowSamples, o.wellFormed) ∧
      successOffsets (outcomes scriptedQuery totalRequests overflowSamples) =
        [4611686018427387904, 4611686018427387904] ∧
      ¬ isInt64 (successOffsets (outcomes scriptedQuery totalRequests overflowSamples)).sum ∧
      offsetAfter ((mockSync 0).sync overflowSamples) = .ok (-4611686018427387904)) := by
  refine ⟨?_, by decide, by decide, by decide, rfl⟩
  intro W s q w hq hwf hsucc hrange
  obtain ⟨lo, hlo, hi, hhi, hb⟩ := exists_min_max hsucc
  have hm := truncatedMean_bounds hsucc hb
  refine ⟨_, _, sync_ok s q w hq hwf, lo, hlo, hi, hhi, hb, ?_⟩
  simpa [hsucc, syncTime.setClockOffset, syncTime.ClockOffset,
    wrappedMean_eq_truncatedMean hrange] using hm

/-- C13, witness: 50ms, 60ms and 70ms publish 60ms, between 50ms and 70ms. -/
theorem C13_published_between_min_and_max_witness :
    (mockSync 5).query = some scriptedQuery ∧
    (∀ o ∈ outcomes scriptedQuery totalRequests threeOfTen, o.wellFormed) ∧
    successOffsets (outcomes scriptedQuery totalRequests threeOfTen) ≠ [] ∧
    isInt64 (successOffsets (outcomes scriptedQuery totalRequests threeOfTen)).sum ∧
    ∃ s' tr, (mockSync 5).sync threeOfTen =
        .ok (s', worldAfter scriptedQuery totalRequests threeOfTen, tr) ∧
      ∃ lo ∈ successOffsets (outcomes scriptedQuery totalRequests threeOfTen),
      ∃ hi ∈ successOffsets (outcomes scriptedQuery totalRequests threeOfTen),
        (∀ x ∈ successOffsets (outcomes scriptedQuery totalRequests threeOfTen),
          lo ≤ x ∧ x ≤ hi) ∧
        lo ≤ s'.ClockOffset ∧ s'.ClockOffset ≤ hi :=
  ⟨rfl, by decide, by decide, by decide,
   C13_published_between_min_and_max.1 _ (mockSync 5) scriptedQuery threeOfTen rfl
     (by decide) (by decide) (by decide)⟩

end ntp

namespace mock

open golang

theorem Get_eq_of_mapIndex {sm : StorerMock} {key : Bytes} :
    sm.Get key =
      match mapIndex sm.data (stringOf key) with
      | none => (none, some (Error.keyNotFound (stringOf key)))
      | some val => (val, none) := rfl

theorem Get_congr {sm sm' : StorerMock} {key : Bytes}
    (h : mapIndex sm'.data (stringOf key) = mapIndex sm.data (stringOf key)) :
    sm'.Get key = sm.Get key := by
  simp only [StorerMock.Get, h]

theorem mapIndex_Put {sm sm' : StorerMock} {key data : Bytes} {err : Option Error}
    (h : sm.Put key data = .ok (sm', err)) (k : List Byte) :
    err = none ∧
    mapIndex sm'.data k = if k = stringOf key then some data else mapIndex sm.data k := by
  unfold StorerMock.Put at h
  cases hd : sm.data with
  | none => rw [hd] at h; cases h
  | some m =>
    rw [hd] at h
    simp only [Except.ok.injEq, Prod.mk.injEq] at h
    obtain ⟨h1, h2⟩ := h
    subst h1
    refine ⟨h2.symm, ?_⟩
    by_cases hk : k = stringOf key
    · subst hk; simp [mapIndex, AList.lookup_insert]
    · simp [mapIndex, hk, AList.lookup_insert_ne hk]

theorem mapIndex_Remove (sm : StorerMock) (key : Bytes) (k : List Byte) :
    (sm.Remove key).2 = none ∧
    mapIndex (sm.Remove key).1.data k =
      if k = stringOf key then none else mapIndex sm.data k := by
  unfold StorerMock.Remove
  cases hd : sm.data with
  | none => simp [mapIndex, hd]
  | some m =>
    refine ⟨rfl, ?_⟩
    by_cases hk : k = stringOf key
    · subst hk; simp [mapIndex, AList.lookup_erase]
    · simp [mapIndex, hk, AList.lookup_erase_ne hk]

theorem Put_ok {sm : StorerMock} (h : sm.data ≠ none) (key data : Bytes) :
    ∃ sm', sm.Put key data = .ok (sm', none) ∧ sm'.data ≠ none := by
  unfold StorerMock.Put
  cases hd : sm.data with
  | none => exact absurd hd h
  | some m => exact ⟨_, rfl, by simp⟩

theorem Remove_data_ne_none {sm : StorerMock} (h : sm.data ≠ none) (key : Bytes) :
    (sm.Remove key).1.data ≠ none := by
  unfold StorerMock.Remove
  cases hd : sm.data with
  | none => exact absurd hd h
  | some m => simp

theorem call_ok {sm : StorerMock} (h : sm.data ≠ none) (c : Call) :
    ∃ sm', sm.call c = .ok sm' ∧ sm'.data ≠ none := by
  cases c with
  | Put key data =>
    obtain ⟨sm', h1, h2⟩ := Put_ok h key data
    exact ⟨sm', by simp [StorerMock.call, h1], h2⟩
  | Remove key => exact ⟨_, rfl, Remove_data_ne_none h key⟩
  | Get key => exact ⟨sm, rfl, h⟩
  | GetFromEpoch key e => exact ⟨sm, rfl, h⟩
  | GetBulkFromEpoch keys e => exact ⟨sm, rfl, h⟩

theorem run_ok : ∀ (calls : List Call) {sm : StorerMock}, sm.data ≠ none →
    ∃ sm', sm.run calls = .ok sm' ∧ sm'.data ≠ none := by
  intro calls
  induction calls with
  | nil => intro sm h; exact ⟨sm, rfl, h⟩
  | cons c rest ih =>
    intro sm h
    obtain ⟨sm1, h1, h2⟩ := call_ok h c
    obtain ⟨sm2, h3, h4⟩ := ih h2
    exact ⟨sm2, by simp [StorerMock.run, h1, h3], h4⟩

theorem run_append : ∀ (pre post : List Call) (sm sm1 : StorerMock),
    sm.run pre = .ok sm1 → sm.run (pre ++ post) = sm1.run post := by
  intro pre
  induction pre with
  | nil =>
    intro post sm sm1 h
    simp only [StorerMock.run, Except.ok.injEq] at h
    subst h; rfl
  | cons c rest ih =>
    intro post sm sm1 h
    simp only [StorerMock.run, List.cons_append] at h ⊢
    cases hc : sm.call c with
    | error e => rw [hc] at h; cases h
    | ok sm2 =>
      rw [hc] at h
      simp only [] at h ⊢
      exact ih post sm2 sm1 h

theorem mapIndex_call {sm sm' : StorerMock} {c : Call} (h : sm.call c = .ok sm')
    (k : List Byte) :
    (c.writesKey k = false → mapIndex sm'.data k = mapIndex sm.data k) ∧
    (c.putsKey k = false → mapIndex sm.data k = none → mapIndex sm'.data k = none) := by
  cases c with
  | Put key data =>
    simp only [StorerMock.call] at h
    cases hp : sm.Put key data with
    | error e => rw [hp] at h; cases h
    | ok res =>
      obtain ⟨sm1, err⟩ := res
      rw [hp] at h
      simp only [Except.ok.injEq] at h
      subst h
      have := (mapIndex_Put hp k).2
      constructor
      · intro hw
        have hk : ¬ k = stringOf key := by
          simpa [Call.writesKey, eq_comm] using hw
        rw [this, if_neg hk]
      · intro hw hnone
        have hk : ¬ k = stringOf key := by
          simpa [Call.putsKey, eq_comm] using hw
        rw [this, if_neg hk, hnone]
  | Remove key =>
    simp only [StorerMock.call, Except.ok.injEq] at h
    subst h
    have := (mapIndex_Remove sm key k).2
    constructor
    · intro hw
      have hk : ¬ k = stringOf key := by
        simpa [Call.writesKey, eq_comm] using hw
      rw [this, if_neg hk]
    · intro _ hnone
      rw [this, hnone]
      simp
  | Get key =>
    simp only [StorerMock.call, Except.ok.injEq] at h
    subst h; exact ⟨fun _ => rfl, fun _ h => h⟩
  | GetFromEpoch key e =>
    simp only [StorerMock.call, Except.ok.injEq] at h
    subst h; exact ⟨fun _ => rfl, fun _ h => h⟩
  | GetBulkFromEpoch keys e =>
    simp only [StorerMock.call, Except.ok.injEq] at h
    subst h; exact ⟨fun _ => rfl, fun _ h => h⟩

theorem mapIndex_run : ∀ (calls : List Call) {sm sm' : StorerMock} (k : List Byte),
    sm.run calls = .ok sm' →
    ((∀ c ∈ calls, c.writesKey k = false) → mapIndex sm'.data k = mapIndex sm.data k) ∧
    ((∀ c ∈ calls, c.putsKey k = false) → mapIndex sm.data k = none →
      mapIndex sm'.data k = none) := by
  intro calls
  induction calls with
  | nil =>
    intro sm sm' k h
    simp only [StorerMock.run, Except.ok.injEq] at h
    subst h; exact ⟨fun _ => rfl, fun _ h => h⟩
  | cons c rest ih =>
    intro sm sm' k h
    simp only [StorerMock.run] at h
    cases hc : sm.call c with
    | error e => rw [hc] at h; cases h
    | ok sm1 =>
      rw [hc] at h
      simp only [] at h
      have h1 := mapIndex_call hc k
      have h2 := ih k h
      constructor
      · intro hw
        rw [h2.1 (fun c' hc' => hw c' (by simp [hc'])), h1.1 (hw c (by simp))]
      · intro hw hnone
        exact h2.2 (fun c' hc' => hw c' (by simp [hc'])) (h1.2 (hw c (by simp)) hnone)


theorem Get_of_mapIndex_some {sm : StorerMock} {key : Bytes} {d : Bytes}
    (h : mapIndex sm.data (stringOf key) = some d) : sm.Get key = (d, none) := by
  simp only [StorerMock.Get, h]

theorem Get_of_mapIndex_none {sm : StorerMock} {key : Bytes}
    (h : mapIndex sm.data (stringOf key) = none) :
    sm.Get key = (none, some (Error.keyNotFound (stringOf key))) := by
  simp only [StorerMock.Get, h]

/-- C14: after any sequence of calls on `NewStorerMock()` the run has not panicked and,
for every key, `Get` returns without error the data of the last `Put` on that key when no
`Put` or `Remove` on it came later; it returns nil and a not-found error when the key was
removed and not put again, or was never put; a `Put` or `Remove` on another key does not
change the result of `Get`; `Put` and `Remove` return a nil error; and `GetFromEpoch`
equals `Get` for every epoch. Keys are compared as `string(key)`. -/
theorem C14_storer_mock_has_map_semantics (calls : List Call) :
    ∃ sm, NewStorerMock.run calls = .ok sm ∧
      (∀ key : Bytes,
        (∀ pre k1 d post, calls = pre ++ Call.Put k1 d :: post →
          stringOf k1 = stringOf key →
          (∀ c ∈ post, c.writesKey (stringOf key) = false) →
          sm.Get key = (d, none)) ∧
        (∀ pre k1 post, calls = pre ++ Call.Remove k1 :: post →
          stringOf k1 = stringOf key →
          (∀ c ∈ post, c.putsKey (stringOf key) = false) →
          sm.Get key = (none, some (Error.keyNotFound (stringOf key)))) ∧
        ((∀ c ∈ calls, c.putsKey (stringOf key) = false) →
          sm.Get key = (none, some (Error.keyNotFound (stringOf key)))) ∧
        (∀ k1 d, stringOf k1 ≠ stringOf key →
          ∃ sm1, sm.Put k1 d = .ok (sm1, none) ∧ sm1.Get key = sm.Get key) ∧
        (∀ k1, stringOf k1 ≠ stringOf key → (sm.Remove k1).1.Get key = sm.Get key) ∧
        (∀ epoch, sm.GetFromEpoch key epoch = sm.Get key)) ∧
      (∀ k d, ∃ sm1, sm.Put k d = .ok (sm1, none)) ∧
      (∀ k, (sm.Remove k).2 = none) := by
  have h0 : NewStorerMock.data ≠ none := by simp [NewStorerMock]
  obtain ⟨sm, hrun, hdata⟩ := run_ok calls h0
  refine ⟨sm, hrun, ?_, ?_, ?_⟩
  · intro key
    refine ⟨?_, ?_, ?_, ?_, ?_, fun _ => rfl⟩
    · intro pre k1 d post hsplit hk hpost
      subst hsplit
      obtain ⟨sm1, hpre, hd1⟩ := run_ok pre h0
      obtain ⟨sm2, hput, _⟩ := Put_ok hd1 k1 d
      have hrest : sm2.run post = .ok sm := by
        rw [run_append pre _ _ _ hpre] at hrun
        simpa [StorerMock.run, StorerMock.call, hput] using hrun
      apply Get_of_mapIndex_some
      rw [(mapIndex_run post _ hrest).1 hpost, (mapIndex_Put hput _).2, if_pos hk.symm]
    · intro pre k1 post hsplit hk hpost
      subst hsplit
      obtain ⟨sm1, hpre, _⟩ := run_ok pre h0
      have hrest : (sm1.Remove k1).1.run post = .ok sm := by
        rw [run_append pre _ _ _ hpre] at hrun
        simpa [StorerMock.run, StorerMock.call] using hrun
      apply Get_of_mapIndex_none
      apply (mapIndex_run post _ hrest).2 hpost
      rw [(mapIndex_Remove sm1 k1 _).2, if_pos hk.symm]
    · intro hno
      apply Get_of_mapIndex_none
      exact (mapIndex_run calls _ hrun).2 hno (by simp [NewStorerMock, mapIndex])
    · intro k1 d hne
      obtain ⟨sm1, hput, _⟩ := Put_ok hdata k1 d
      refine ⟨sm1, hput, Get_congr ?_⟩
      rw [(mapIndex_Put hput _).2, if_neg (fun h => hne h.symm)]
    · intro k1 hne
      apply Get_congr
      rw [(mapIndex_Remove sm k1 _).2, if_neg (fun h => hne h.symm)]
  · intro k d
    obtain ⟨sm1, hput, _⟩ := Put_ok hdata k d
    exact ⟨sm1, hput⟩
  · intro k
    exact (mapIndex_Remove sm k []).1

/-- C14, witness: after `exampleCalls` the key `keyA` holds its second value, the removed
`keyB` and the never stored `keyC` are not found. -/
theorem C14_storer_mock_has_map_semantics_witness :
    ∃ sm, NewStorerMock.run exampleCalls = .ok sm ∧
      sm.Get keyA = (valY, none) ∧
      sm.Get keyB = (none, some (Error.keyNotFound (stringOf keyB))) ∧
      sm.Get keyC = (none, some (Error.keyNotFound (stringOf keyC))) ∧
      (∃ sm1, sm.Put keyB valX = .ok (sm1, none) ∧ sm1.Get keyA = sm.Get keyA) ∧
      sm.GetFromEpoch keyA 7 = sm.Get keyA := by
  obtain ⟨sm, hrun, hkeys, _, _⟩ := C14_storer_mock_has_map_semantics exampleCalls
  exact ⟨sm, hrun,
    (hkeys keyA).1 [Call.Put keyA valX, Call.Put keyB valY, Call.Get keyA, Call.Remove keyB]
      keyA valY [] rfl rfl (by decide),
    (hkeys keyB).2.1 [Call.Put keyA valX, Call.Put keyB valY, Call.Get keyA]
      keyB [Call.Put keyA valY] rfl rfl (by decide),
    (hkeys keyC).2.2.1 (by decide),
    (hkeys keyA).2.2.2.1 keyB valX (by decide),
    (hkeys keyA).2.2.2.2.2 7⟩

/-- The accumulation step of `GetBulkFromEpoch`. -/
theorem bulk_lookup (sm : StorerMock) : ∀ (keys : List Bytes) (acc : GoMap) (k : List Byte),
    (keys.foldl
      (fun retValue key =>
        match sm.Get key with
        | (_, some _) => retValue
        | (value, none) => retValue.insert (stringOf key) value)
      acc).lookup k =
      if k ∈ keys.map stringOf then
        (match mapIndex sm.data k with
          | some v => some v
          | none => acc.lookup k)
      else acc.lookup k := by
  intro keys
  induction keys with
  | nil => intro acc k; simp
  | cons key rest ih =>
    intro acc k
    simp only [List.foldl_cons, List.map_cons, List.mem_cons]
    rw [ih]
    cases hidx : mapIndex sm.data (stringOf key) with
    | none =>
      have hget := Get_of_mapIndex_none hidx
      simp only [hget]
      by_cases hk : k = stringOf key
      · subst hk; simp [hidx]
      · simp [hk]
    | some v =>
      have hget := Get_of_mapIndex_some hidx
      simp only [hget]
      by_cases hk : k = stringOf key
      · subst hk; simp [hidx, AList.lookup_insert]
      · simp only [hk, false_or, AList.lookup_insert_ne hk]

/-- C15: for every store, list of keys and epoch, `GetBulkFromEpoch` returns a nil error
and a map whose keys are exactly the requested keys (as strings) present in the store,
each mapped to the value `Get` returns for it; a requested key that `Get` does not find
has no entry; no key has two entries, whatever the duplicates of the request; and the
call leaves the store as it was. -/
theorem C15_bulk_get_returns_present_keys (sm : StorerMock) (keys : List Bytes)
    (epoch : Nat) :
    (sm.GetBulkFromEpoch keys epoch).2 = none ∧
    (∀ k : List Byte, k ∈ (sm.GetBulkFromEpoch keys epoch).1.keys ↔
      k ∈ keys.map stringOf ∧ (mapIndex sm.data k).isSome) ∧
    (∀ key ∈ keys, (sm.Get key).2 = none →
      (sm.GetBulkFromEpoch keys epoch).1.lookup (stringOf key) = some (sm.Get key).1) ∧
    (∀ key ∈ keys, (sm.Get key).2 ≠ none →
      (sm.GetBulkFromEpoch keys epoch).1.lookup (stringOf key) = none) ∧
    (sm.GetBulkFromEpoch keys epoch).1.keys.Nodup ∧
    sm.call (Call.GetBulkFromEpoch keys epoch) = .ok sm := by
  have hl : ∀ k, (sm.GetBulkFromEpoch keys epoch).1.lookup k =
      if k ∈ keys.map stringOf then mapIndex sm.data k else none := by
    intro k
    simp only [StorerMock.GetBulkFromEpoch]
    rw [bulk_lookup]
    by_cases hk : k ∈ keys.map stringOf
    · simp only [hk, if_true, AList.lookup_empty]
      cases mapIndex sm.data k <;> rfl
    · simp only [hk, if_false, AList.lookup_empty]
  refine ⟨rfl, ?_, ?_, ?_, AList.keys_nodup _, rfl⟩
  · intro k
    rw [← AList.mem_keys, ← AList.lookup_isSome, hl k]
    by_cases hk : k ∈ keys.map stringOf
    · simp [hk]
    · simp [hk]
  · intro key hkey herr
    have hmem : stringOf key ∈ keys.map stringOf := List.mem_map_of_mem _ hkey
    rw [hl, if_pos hmem]
    cases hidx : mapIndex sm.data (stringOf key) with
    | none => rw [Get_of_mapIndex_none hidx] at herr; cases herr
    | some v => rw [Get_of_mapIndex_some hidx]
  · intro key hkey herr
    have hmem : stringOf key ∈ keys.map stringOf := List.mem_map_of_mem _ hkey
    rw [hl, if_pos hmem]
    cases hidx : mapIndex sm.data (stringOf key) with
    | none => rfl
    | some v => rw [Get_of_mapIndex_some hidx] at herr; exact absurd rfl herr

/-- C15, witness: a request naming `keyA` twice, the absent `keyC` and `keyB` returns
two entries, one for `keyB` and one for `keyA`. -/
theorem C15_bulk_get_returns_present_keys_witness :
    (exampleStore.GetBulkFromEpoch [keyA, keyA, keyC, keyB] 7).2 = none ∧
    (∀ k : List Byte, k ∈ (exampleStore.GetBulkFromEpoch [keyA, keyA, keyC, keyB] 7).1.keys ↔
      k ∈ [keyA, keyA, keyC, keyB].map stringOf ∧ (mapIndex exampleStore.data k).isSome) ∧
    (exampleStore.GetBulkFromEpoch [keyA, keyA, keyC, keyB] 7).1.keys =
      [stringOf keyB, stringOf keyA] ∧
    (exampleStore.GetBulkFromEpoch [keyA, keyA, keyC, keyB] 7).1.lookup (stringOf keyA) =
      some valX ∧
    (exampleStore.GetBulkFromEpoch [keyA, keyA, keyC, keyB] 7).1.lookup (stringOf keyC) =
      none :=
  ⟨(C15_bulk_get_returns_present_keys exampleStore [keyA, keyA, keyC, keyB] 7).1,
   (C15_bulk_get_returns_present_keys exampleStore [keyA, keyA, keyC, keyB] 7).2.1,
   by decide, by decide, by decide⟩

end mock

namespace block

open golang

theorem consensusLoop_eq (own : Bytes) : ∀ (pks : List (List Byte)) (b : Bool),
    consensusLoop own pks b = (b || decide (stringOf own ∈ pks)) := by
  intro pks
  induction pks with
  | nil => intro b; simp [consensusLoop]
  | cons pk rest ih =>
    intro b
    simp only [consensusLoop, bytesEqual, bytesOf, stringOf, Option.getD_some]
    by_cases h : pk = Option.getD own []
    · simp [h, ih]
    · have h' : ¬ Option.getD own [] = pk := fun e => h e.symm
      simp [h, h', ih, stringOf]

theorem incrementLoop_eq : ∀ (fuel : Nat) (i n : Int) (calls : List StatusCall),
    (n - i).toNat ≤ fuel →
    incrementLoop fuel i n calls =
      calls ++ List.replicate (n - i).toNat
        (StatusCall.Increment Metric.MetricCountConsensusAcceptedBlocks) := by
  intro fuel
  induction fuel with
  | zero =>
    intro i n calls h
    have : (n - i).toNat = 0 := by omega
    simp [incrementLoop, this]
  | succ f ih =>
    intro i n calls h
    by_cases hlt : i < n
    · have e : (n - i).toNat = (n - (i + 1)).toNat + 1 := by omega
      simp only [incrementLoop, hlt, if_true]
      rw [ih (i + 1) n _ (by omega), e, List.replicate_succ]
      simp
    · have : (n - i).toNat = 0 := by omega
      simp [incrementLoop, hlt, this]


theorem toInt_toInt_add (a b : Int) : toInt (toInt a + b) = toInt (a + b) := by
  unfold toInt; omega

theorem toUint64_toInt (a : Int) : toUint64 (toInt a) = toUint64 a := by
  unfold toUint64 toInt; omega

theorem toUint64_natCast (a : Nat) : toUint64 (a : Int) = a % 18446744073709551616 := by
  unfold toUint64; omega

theorem toUint64_add_toUint64 (a b : Nat) :
    toUint64 ((toUint64 (a : Int) : Nat) + (b : Int)) = toUint64 ((a + b : Nat) : Int) := by
  unfold toUint64; omega

theorem bodyLoop_eq {MB M : Type} (TxHashes : MB → List Bytes)
    (Marshal : MB → M → (Bytes × Option String) × M) :
    ∀ (body : List MB) (t sz : Nat) (m : M),
      (bodyLoop TxHashes Marshal body (toInt t) (toUint64 sz) m).1 =
        toInt ((t + txTotal TxHashes body : Nat) : Int) ∧
      (bodyLoop TxHashes Marshal body (toInt t) (toUint64 sz) m).2.1 =
        toUint64 ((sz + sizeTotal (marshalResults Marshal body m) : Nat) : Int) := by
  intro body
  induction body with
  | nil => intro t sz m; simp [bodyLoop, txTotal, sizeTotal, marshalResults]
  | cons mb rest ih =>
    intro t sz m
    have e1 : toInt (toInt (t : Int) + ((TxHashes mb).length : Int)) =
        toInt (((t + (TxHashes mb).length : Nat)) : Int) := by
      rw [toInt_toInt_add]; push_cast; rfl
    rcases hres : Marshal mb m with ⟨⟨bytes, err⟩, m1⟩
    cases err with
    | some e =>
      have := ih (t + (TxHashes mb).length) sz m1
      simp only [bodyLoop, hres, e1, this, txTotal, sizeTotal, marshalResults,
        List.map_cons, List.sum_cons, marshalledLength]
      simp only [Nat.add_assoc, Nat.zero_add, and_self]
    | none =>
      have e2 : toUint64 ((toUint64 (sz : Int) : Nat) + ((toUint64 ((len bytes : Nat) : Int) : Nat) : Int)) =
          toUint64 (((sz + len bytes : Nat)) : Int) := by
        unfold toUint64; omega
      have := ih (t + (TxHashes mb).length) (sz + len bytes) m1
      simp only [bodyLoop, hres, e1, txTotal, sizeTotal, marshalResults,
        List.map_cons, List.sum_cons, marshalledLength] at this ⊢
      rw [e2, this.1, this.2]
      simp only [Nat.add_assoc, and_self]


theorem bodyLoop_world {MB M : Type} (TxHashes : MB → List Bytes)
    (Marshal : MB → M → (Bytes × Option String) × M) :
    ∀ (body : List MB) (t : Int) (sz : Nat) (m : M) (t' : Int) (sz' : Nat),
      (bodyLoop TxHashes Marshal body t sz m).2.2 =
        (bodyLoop TxHashes Marshal body t' sz' m).2.2 := by
  intro body
  induction body with
  | nil => intro t sz m t' sz'; rfl
  | cons mb rest ih =>
    intro t sz m t' sz'
    rcases hres : Marshal mb m with ⟨⟨bytes, err⟩, m1⟩
    cases err with
    | some e => simp only [bodyLoop, hres]; exact ih _ _ _ _ _
    | none => simp only [bodyLoop, hres]; exact ih _ _ _ _ _

/-- C17: `getMetricsFromBlockBody` sets, in this order, `MetricNumTxInBlock` to the
number of transaction hashes of all miniblocks, `MetricNumMiniBlocks` to the number of
miniblocks and `MetricMiniBlocksSize` to the sum of the marshalled lengths of the
miniblocks whose marshalling succeeded, a failed one adding 0; each value is reduced
modulo 2^64 by the 64-bit counters, so it is the exact total whenever that total is a
`uint64`; for an empty body all three are 0. -/
theorem C17_block_body_metrics {MB M : Type} (TxHashes : MB → List Bytes)
    (Marshal : MB → M → (Bytes × Option String) × M) (body : List MB) (m : M) :
    (getMetricsFromBlockBody TxHashes Marshal body m).1 =
      [StatusCall.SetUInt64Value Metric.MetricNumTxInBlock
         (txTotal TxHashes body % 18446744073709551616),
       StatusCall.SetUInt64Value Metric.MetricNumMiniBlocks
         (body.length % 18446744073709551616),
       StatusCall.SetUInt64Value Metric.MetricMiniBlocksSize
         (sizeTotal (marshalResults Marshal body m) % 18446744073709551616)] ∧
    (txTotal TxHashes body < 18446744073709551616 →
      body.length < 18446744073709551616 →
      sizeTotal (marshalResults Marshal body m) < 18446744073709551616 →
      (getMetricsFromBlockBody TxHashes Marshal body m).1 =
        [StatusCall.SetUInt64Value Metric.MetricNumTxInBlock (txTotal TxHashes body),
         StatusCall.SetUInt64Value Metric.MetricNumMiniBlocks body.length,
         StatusCall.SetUInt64Value Metric.MetricMiniBlocksSize
           (sizeTotal (marshalResults Marshal body m))]) ∧
    (body = [] →
      (getMetricsFromBlockBody TxHashes Marshal body m).1 =
        [StatusCall.SetUInt64Value Metric.MetricNumTxInBlock 0,
         StatusCall.SetUInt64Value Metric.MetricNumMiniBlocks 0,
         StatusCall.SetUInt64Value Metric.MetricMiniBlocksSize 0]) := by
  have hloop := bodyLoop_eq TxHashes Marshal body 0 0 m
  have h0 : toInt ((0 : Nat) : Int) = 0 := by decide
  have h1 : toUint64 ((0 : Nat) : Int) = 0 := by decide
  rw [h0, h1] at hloop
  have hgen : (getMetricsFromBlockBody TxHashes Marshal body m).1 =
      [StatusCall.SetUInt64Value Metric.MetricNumTxInBlock
         (txTotal TxHashes body % 18446744073709551616),
       StatusCall.SetUInt64Value Metric.MetricNumMiniBlocks
         (body.length % 18446744073709551616),
       StatusCall.SetUInt64Value Metric.MetricMiniBlocksSize
         (sizeTotal (marshalResults Marshal body m) % 18446744073709551616)] := by
    simp only [getMetricsFromBlockBody, hloop.1, hloop.2, toUint64_toInt, toUint64_natCast,
      Nat.zero_add]
  refine ⟨hgen, ?_, ?_⟩
  · intro ht hb hs
    rw [hgen, Nat.mod_eq_of_lt ht, Nat.mod_eq_of_lt hb, Nat.mod_eq_of_lt hs]
  · intro hnil
    subst hnil
    rw [hgen]
    simp [txTotal, sizeTotal, marshalResults]

/-- C16: `estimateRewardsForMetachain` makes `numBlockHeaders` calls
`Increment(MetricCountConsensusAcceptedBlocks)`, and nothing else, when some element of
`publicKeys` has the bytes of `ownPublicKey` and `numBlockHeaders > 0`; it makes no call
when the own key is absent or `numBlockHeaders` is zero or negative; two lists that both
contain the own key give the same calls, however often it occurs. -/
theorem C16_estimate_rewards_increments (publicKeys : List (List Byte)) (ownPublicKey : Bytes)
    (numBlockHeaders : Int) :
    estimateRewardsForMetachain publicKeys ownPublicKey numBlockHeaders =
      (if stringOf ownPublicKey ∈ publicKeys ∧ 0 < numBlockHeaders then
        List.replicate numBlockHeaders.toNat
          (StatusCall.Increment Metric.MetricCountConsensusAcceptedBlocks)
      else []) ∧
    ((estimateRewardsForMetachain publicKeys ownPublicKey numBlockHeaders).length : Int) =
      (if stringOf ownPublicKey ∈ publicKeys ∧ 0 < numBlockHeaders then numBlockHeaders
      else 0) ∧
    (∀ publicKeys2 : List (List Byte),
      stringOf ownPublicKey ∈ publicKeys → stringOf ownPublicKey ∈ publicKeys2 →
      estimateRewardsForMetachain publicKeys2 ownPublicKey numBlockHeaders =
        estimateRewardsForMetachain publicKeys ownPublicKey numBlockHeaders) := by
  have hgen : ∀ pks : List (List Byte),
      estimateRewardsForMetachain pks ownPublicKey numBlockHeaders =
      (if stringOf ownPublicKey ∈ pks ∧ 0 < numBlockHeaders then
        List.replicate numBlockHeaders.toNat
          (StatusCall.Increment Metric.MetricCountConsensusAcceptedBlocks)
      else []) := by
    intro pks
    unfold estimateRewardsForMetachain
    simp only [consensusLoop_eq, Bool.false_or]
    by_cases hmem : stringOf ownPublicKey ∈ pks
    · by_cases h0 : numBlockHeaders = 0
      · simp [hmem, h0]
      · have hl := incrementLoop_eq numBlockHeaders.toNat 0 numBlockHeaders [] (by simp)
        simp only [sub_zero, List.nil_append] at hl
        by_cases hpos : 0 < numBlockHeaders
        · simp [hmem, h0, hpos, hl]
        · have : numBlockHeaders.toNat = 0 := by omega
          simp [hmem, h0, hpos, this, incrementLoop]
    · simp [hmem]
  refine ⟨hgen publicKeys, ?_, ?_⟩
  · rw [hgen publicKeys]
    by_cases h : stringOf ownPublicKey ∈ publicKeys ∧ 0 < numBlockHeaders
    · simp only [h, and_self, if_true, List.length_replicate]
      omega
    · simp [h]
  · intro pks2 h1 h2
    rw [hgen publicKeys, hgen pks2]
    simp [h1, h2]

/-- C16, witness: the own key occurs twice among three keys; three headers give three
increments, zero or minus three headers give none, and so does an absent key. -/
theorem C16_estimate_rewards_increments_witness :
    estimateRewardsForMetachain [[1], [2], [1]] (some [1]) 3 =
      [StatusCall.Increment Metric.MetricCountConsensusAcceptedBlocks,
       StatusCall.Increment Metric.MetricCountConsensusAcceptedBlocks,
       StatusCall.Increment Metric.MetricCountConsensusAcceptedBlocks] ∧
    estimateRewardsForMetachain [[1], [2]] (some [1]) 3 =
      estimateRewardsForMetachain [[1], [2], [1]] (some [1]) 3 ∧
    estimateRewardsForMetachain [[1], [2], [1]] (some [1]) 0 = [] ∧
    estimateRewardsForMetachain [[1], [2], [1]] (some [1]) (-3) = [] ∧
    estimateRewardsForMetachain [[1], [2], [1]] (some [7]) 3 = [] :=
  ⟨(C16_estimate_rewards_increments [[1], [2], [1]] (some [1]) 3).1,
   (C16_estimate_rewards_increments [[1], [2], [1]] (some [1]) 3).2.2 [[1], [2]]
     (by decide) (by decide),
   (C16_estimate_rewards_increments [[1], [2], [1]] (some [1]) 0).1,
   (C16_estimate_rewards_increments [[1], [2], [1]] (some [1]) (-3)).1,
   (C16_estimate_rewards_increments [[1], [2], [1]] (some [7]) 3).1⟩

/-- C17, witness: three miniblocks with 1, 2 and 3 hashes, the second failing to
marshal and the others giving 4 and 10 bytes: 6 transactions, 3 miniblocks, 14 bytes. -/
theorem C17_block_body_metrics_witness :
    txTotal id exampleBody < 18446744073709551616 ∧
    exampleBody.length < 18446744073709551616 ∧
    sizeTotal (marshalResults exampleMarshal exampleBody ()) < 18446744073709551616 ∧
    (getMetricsFromBlockBody id exampleMarshal exampleBody ()).1 =
      [StatusCall.SetUInt64Value Metric.MetricNumTxInBlock (txTotal id exampleBody),
       StatusCall.SetUInt64Value Metric.MetricNumMiniBlocks exampleBody.length,
       StatusCall.SetUInt64Value Metric.MetricMiniBlocksSize
         (sizeTotal (marshalResults exampleMarshal exampleBody ()))] ∧
    (getMetricsFromBlockBody id exampleMarshal exampleBody ()).1 =
      [StatusCall.SetUInt64Value Metric.MetricNumTxInBlock 6,
       StatusCall.SetUInt64Value Metric.MetricNumMiniBlocks 3,
       StatusCall.SetUInt64Value Metric.MetricMiniBlocksSize 14] :=
  ⟨by decide, by decide, by decide,
   (C17_block_body_metrics id exampleMarshal exampleBody ()).2.1 (by decide) (by decide)
     (by decide),
   by decide⟩

end block
